import Mathlib

/-!
Verification development for the qPCR spreadsheet-ingestion pipeline
(`excel_parser.py`, `data_converter.py`, `data_model.py`).

The embedding mirrors the Python source:

* A spreadsheet cell is `Cell`: missing (`NaN` in pandas), a number, or a
  string.  Machine floats are modelled as rationals; every comparison and
  range check performed by the source is order-theoretic, so no floating
  point rounding is observable in the verified properties.
* A worksheet is a `Grid`: a list of rows of cells.  pandas pads every row
  of a sheet to the sheet width with `NaN` cells, which the embedding
  reproduces through padded access (`gridCell`) together with the sheet
  width (`gridWidth`).
* The intermediate tables emitted by the vendor scanners are lists of typed
  row records (`ARow`, `RRow`, `Amp7Row`): each appended Python dict in the
  scanners carries exactly the keys `Cycle`, `Well`, `Channel` and the
  value column, with `Ct` and `SampleName` optional, so the corresponding
  pandas DataFrame always has those columns.  The converters are modelled
  on tables of this scanner-emitted shape.
* Python dicts are association lists with dict update semantics
  (`updateA`): an existing key is overwritten in place, a new key is
  appended.  `pandas.groupby` group keys are collected in first-appearance
  order below; pandas itself sorts group keys, but none of the proved
  statements depend on the relative order in which groups are folded.
* `pandas.sort_values` is modelled by a stable insertion sort; the pandas
  default sort is not stable on ties, and no proved statement depends on
  the relative order of rows with equal cycle numbers.
-/

set_option linter.unusedVariables false
set_option maxRecDepth 8000

/-- A spreadsheet/DataFrame cell: pandas `NaN`, a number, or a string. -/
inductive Cell where
  | na : Cell
  | num : ℚ → Cell
  | str : String → Cell
deriving DecidableEq, Repr

/-- `pd.notna` for a cell. -/
def Cell.notna : Cell → Bool
  | .na => false
  | _ => true

/-- `pd.isna` for a cell. -/
def Cell.isna (c : Cell) : Bool := !c.notna

/-- Python `str(x)` on a cell value.  For numeric cells Python renders a
float literal; the rendering is modelled by `toString` on the rational.
No verified statement matches the textual rendering of a numeric cell. -/
def Cell.toStr : Cell → String
  | .na => "nan"
  | .num q => toString q
  | .str s => s

/-- Whether `pat` starts the character list `hay`. -/
def charsStartWith : (pat hay : List Char) → Bool
  | [], _ => true
  | _ :: _, [] => false
  | a :: as, b :: bs => a = b && charsStartWith as bs

/-- Whether `pat` occurs anywhere in `hay`. -/
def charsContain (pat : List Char) : List Char → Bool
  | [] => pat.isEmpty
  | c :: rest => charsStartWith pat (c :: rest) || charsContain pat rest

/-- Substring containment, Python `sub in s`. -/
def containsSub (s pat : String) : Bool := charsContain pat.data s.data

/-- Python `str.strip()`: drop leading and trailing whitespace. -/
def strTrim (s : String) : String :=
  ⟨((s.data.dropWhile Char.isWhitespace).reverse.dropWhile Char.isWhitespace).reverse⟩

/-- Python `str.upper()` (over the ASCII letters the source compares). -/
def strUpper (s : String) : String := ⟨s.data.map Char.toUpper⟩

/-- Python `str.lower()` (over the ASCII letters the source compares). -/
def strLower (s : String) : String := ⟨s.data.map Char.toLower⟩

/-- Lexicographic comparison of character lists (Python string order). -/
def charsLe : List Char → List Char → Bool
  | [], _ => true
  | _ :: _, [] => false
  | a :: as, b :: bs => if a = b then charsLe as bs else decide (a < b)

/-- Python string `<=`, by code points. -/
def strLeB (a b : String) : Bool := charsLe a.data b.data

/-- Digits of a natural-number string. -/
def digitsToNat (cs : List Char) : Nat :=
  cs.foldl (fun n c => n * 10 + (c.toNat - '0'.toNat)) 0

/-- Decimal fraction digits read as a rational in `[0,1)`. -/
def digitsToFrac (cs : List Char) : ℚ :=
  (digitsToNat cs : ℚ) / ((10 : ℚ) ^ cs.length)

/-- Python `float(s)` on a decimal string: optional sign, digits, optional
fractional part.  The full Python float grammar also accepts exponents and
special words; no verified statement depends on parsing such strings. -/
def parseFloat (s : String) : Option ℚ :=
  let t := (strTrim s).data
  let (sign, u) : ℚ × List Char :=
    match t with
    | '-' :: rest => (-1, rest)
    | '+' :: rest => (1, rest)
    | _ => (1, t)
  let intPart := u.takeWhile Char.isDigit
  let rest := u.dropWhile Char.isDigit
  match rest with
  | [] =>
      if intPart.isEmpty then none
      else some (sign * (digitsToNat intPart : ℚ))
  | '.' :: frac =>
      if frac.all Char.isDigit ∧ ¬ (intPart.isEmpty ∧ frac.isEmpty) then
        some (sign * ((digitsToNat intPart : ℚ) + digitsToFrac frac))
      else none
  | _ => none

/-- Python `float(cell)` under a preceding `pd.notna` guard: numbers pass
through, strings are parsed, a missing cell yields no number. -/
def Cell.toFloat : Cell → Option ℚ
  | .na => none
  | .num q => some q
  | .str s => parseFloat s

/-- Python `int(q)` on a float: truncation toward zero. -/
def ratTrunc (q : ℚ) : Int := q.num / (q.den : Int)


/-- `' '.join(str(x) for x in row if pd.notna(x))`, the row text the
scanners search for marker tokens. -/
def rowJoin (row : List Cell) : String :=
  String.intercalate " " (row.filterMap fun c => if c.isna then none else some c.toStr)

/-- The well-coordinate pattern `^[A-H][0-9]{1,2}$`, case-insensitive. -/
def wellMatch (s : String) : Bool :=
  match s.toList with
  | c :: rest =>
      (('A' ≤ c ∧ c ≤ 'H') ∨ ('a' ≤ c ∧ c ≤ 'h')) ∧
      rest ≠ [] ∧ rest.length ≤ 2 ∧ rest.all Char.isDigit
  | [] => false

/-- Association-list lookup (Python dict `get` / `in`). -/
def lookupA {α : Type} : List (String × α) → String → Option α
  | [], _ => none
  | (k, v) :: rest, key => if k = key then some v else lookupA rest key

/-- Python dict assignment `d[k] = v`: overwrite in place, else append. -/
def updateA {α : Type} : List (String × α) → String → α → List (String × α)
  | [], key, v => [(key, v)]
  | (k, w) :: rest, key, v =>
      if k = key then (k, v) :: rest else (k, w) :: updateA rest key v

/-- Keys of an association list. -/
def keysA {α : Type} (l : List (String × α)) : List String := l.map Prod.fst

/-- Duplicate removal keeping first occurrences (`pandas.unique`). -/
def dedupFirst {α : Type} [DecidableEq α] (l : List α) : List α :=
  l.foldl (fun acc k => if k ∈ acc then acc else acc ++ [k]) []

/-- Stable insertion into a list sorted by `le`. -/
def insertBy {α : Type} (le : α → α → Bool) (a : α) : List α → List α
  | [] => [a]
  | b :: rest => if le b a then b :: insertBy le a rest else a :: b :: rest

/-- Stable insertion sort by `le`. -/
def sortBy {α : Type} (le : α → α → Bool) : List α → List α
  | [] => []
  | a :: rest => insertBy le a (sortBy le rest)

/-- Python `sorted` on strings (ascending). -/
def sortStrings (l : List String) : List String := sortBy strLeB l

/-- Python `sorted` on integers (ascending). -/
def sortInts (l : List Int) : List Int := sortBy (fun a b => a ≤ b) l

/-! ## The canonical data model (`data_model.py`) -/

/-- `WellData`: one well of a plate run (`data_model.py`).  `channels` and
`raw_channels` map a channel name to its signal sequence, `cycles` is the
cycle sequence, `ct_values` the per-channel Ct calls.  Of the free-form
metadata only `sample_name` is ever written by the converters. -/
structure WellData where
  well_name : String
  channels : List (String × List Cell) := []
  raw_channels : List (String × List Cell) := []
  cycles : List Cell := []
  ct_values : List (String × ℚ) := []
  sample_name : Option String := none
deriving DecidableEq, Repr

/-- `WellData.get_channel_data`. -/
def WellData.get_channel_data (w : WellData) (channel_name : String) : Option (List Cell) :=
  lookupA w.channels channel_name

/-- `WellData.has_channel`: the key is present with a nonempty sequence. -/
def WellData.has_channel (w : WellData) (channel_name : String) : Bool :=
  match lookupA w.channels channel_name with
  | some vs => ¬ vs.isEmpty
  | none => false

/-- `PCRDataModel`: the plate run. -/
structure PCRDataModel where
  wells : List (String × WellData) := []
  plate_type : String := "96"
deriving DecidableEq, Repr

/-- `PCRDataModel.get_well`. -/
def PCRDataModel.get_well (m : PCRDataModel) (well_name : String) : Option WellData :=
  lookupA m.wells well_name

/-- The column names `get_all_channels` filters out of the processed map. -/
def ampFilterNames : List String := ["Well", "Channel", "Amplification", "Value", "Cycle"]

/-- The column names `get_all_channels` filters out of the raw map. -/
def rawFilterNames : List String := ["Well", "Channel", "RawValue", "Value", "Cycle"]

/-- `PCRDataModel.get_all_channels`: the union of channel keys over all
wells, with the per-map filter lists applied, deduplicated and sorted
(Python builds a set and sorts it). -/
def PCRDataModel.get_all_channels (m : PCRDataModel) : List String :=
  let collected := m.wells.foldl (fun acc (p : String × WellData) =>
    acc ++ (keysA p.2.channels).filter (fun ch => ch ∉ ampFilterNames)
        ++ (keysA p.2.raw_channels).filter (fun ch => ch ∉ rawFilterNames)) []
  sortStrings (dedupFirst collected)

/-- One output row of `to_dataframe`: columns Cycle, Well, Channel, Value. -/
structure QRow where
  cycle : Cell
  well : String
  channel : String
  value : Cell
deriving DecidableEq, Repr

/-- The structural column names skipped by `to_dataframe`. -/
def structuralNames : List String :=
  ["Well", "Channel", "Amplification", "Value", "Cycle", "RawValue"]

/-- The truncating row builder shared by the query paths:
`for i in range(min(len(cycles), len(values))): rows.append(...)`. -/
def buildRows (cycles values : List Cell) (well channel : String) : List QRow :=
  (List.range (min cycles.length values.length)).map fun i =>
    { cycle := cycles.getD i Cell.na, well := well, channel := channel,
      value := values.getD i Cell.na }

/-- The default cycle list `list(range(1, n+1))` used by the query paths
when a well has no cycle list. -/
def defaultCycles (n : ℕ) : List Cell :=
  (List.range n).map fun i => Cell.num (i + 1 : ℕ)

/-- Python truthiness of an optional list argument: `None` and `[]` both
fall back to the default. -/
def pyListArg {α : Type} (arg : Option (List α)) (dflt : List α) : List α :=
  match arg with
  | some (a :: rest) => a :: rest
  | _ => dflt

/-- `PCRDataModel.to_dataframe`: the amplification-kind query.  For each
requested well and channel it skips structural names, applies the HEX/VIC
query-time substitution, and emits rows labeled with the requested channel
name. -/
def PCRDataModel.to_dataframe (m : PCRDataModel)
    (well_names channel_names : Option (List String)) : List QRow :=
  let target_wells := pyListArg well_names (keysA m.wells)
  let target_channels := pyListArg channel_names m.get_all_channels
  target_wells.foldl (fun acc well_name =>
    match m.get_well well_name with
    | none => acc
    | some well =>
      let cycles := if well.cycles.isEmpty then defaultCycles 40 else well.cycles
      acc ++ target_channels.foldl (fun acc2 channel_name =>
        if channel_name ∈ structuralNames then acc2
        else
          let actual : Option String :=
            if well.has_channel channel_name then some channel_name
            else if channel_name = "HEX" ∧ well.has_channel "VIC" then some "VIC"
            else if channel_name = "VIC" ∧ well.has_channel "HEX" then some "HEX"
            else none
          match actual with
          | none => acc2
          | some actual_channel =>
            match well.get_channel_data actual_channel with
            | none => acc2
            | some values =>
              if values.isEmpty then acc2
              else acc2 ++ buildRows cycles values well_name channel_name) []) []

/-- One output row of `get_amplification_data`: `to_dataframe` output plus
an `Amplification` column copied from `Value`. -/
structure QRowAmp where
  cycle : Cell
  well : String
  channel : String
  value : Cell
  amplification : Cell
deriving DecidableEq, Repr

/-- `PCRDataModel.get_amplification_data`: `to_dataframe` with the added
`Amplification` column equal to `Value`. -/
def PCRDataModel.get_amplification_data (m : PCRDataModel)
    (well_names channel_names : Option (List String)) : List QRowAmp :=
  (m.to_dataframe well_names channel_names).map fun r =>
    { cycle := r.cycle, well := r.well, channel := r.channel,
      value := r.value, amplification := r.value }

/-- One output row of `get_raw_data`: columns Cycle, Well, Channel, RawValue. -/
structure RQRow where
  cycle : Cell
  well : String
  channel : String
  rawValue : Cell
deriving DecidableEq, Repr

/-- The truncating row builder of `get_raw_data`. -/
def buildRawRows (cycles values : List Cell) (well channel : String) : List RQRow :=
  (List.range (min cycles.length values.length)).map fun i =>
    { cycle := cycles.getD i Cell.na, well := well, channel := channel,
      rawValue := values.getD i Cell.na }

/-- `PCRDataModel.get_raw_data`: the raw-kind query.  The substitution
condition tests key membership in both maps, and a channel whose key is
absent from the raw map falls back to the processed map.  There is no
structural-name skip in this function. -/
def PCRDataModel.get_raw_data (m : PCRDataModel)
    (well_names channel_names : Option (List String)) : List RQRow :=
  let target_wells := pyListArg well_names (keysA m.wells)
  let target_channels := pyListArg channel_names m.get_all_channels
  target_wells.foldl (fun acc well_name =>
    match m.get_well well_name with
    | none => acc
    | some well =>
      let cycles := if well.cycles.isEmpty then defaultCycles 42 else well.cycles
      acc ++ target_channels.foldl (fun acc2 channel_name =>
        let inRaw := fun k => (lookupA well.raw_channels k).isSome
        let inCh := fun k => (lookupA well.channels k).isSome
        let actual : Option String :=
          if ¬ inRaw channel_name ∧ ¬ inCh channel_name then
            if channel_name = "HEX" then
              if inRaw "VIC" ∨ inCh "VIC" then some "VIC" else none
            else if channel_name = "VIC" then
              if inRaw "HEX" ∨ inCh "HEX" then some "HEX" else none
            else none
          else some channel_name
        match actual with
        | none => acc2
        | some actual_channel =>
          let values : Option (List Cell) :=
            match lookupA well.raw_channels actual_channel with
            | some vs => some vs
            | none => lookupA well.channels actual_channel
          match values with
          | none => acc2
          | some vs =>
            if vs.isEmpty then acc2
            else acc2 ++ buildRawRows cycles vs well_name channel_name) []) []

/-! ## Intermediate tables and the converters (`data_converter.py`)

The vendor-A and vendor-7500 scanners emit their amplification tables as
lists of dicts that always carry the keys `Cycle` (an int), `Well` and
`Channel` (strings) and the numeric value column, with `Ct` and
`SampleName` present on some rows; the raw tables always carry `Cycle`,
`Well`, `Channel`, `RawValue`.  The converters are modelled on tables of
exactly this shape, so the DataFrame column-existence tests of the source
(`'Cycle' in group_df.columns` and so on) are decided by the row type:
`Cycle`, `Well`, `Channel` and the value column are always present, `Ct`
and `SampleName` are present when some row carries them.  Group keys with
missing wells or channels cannot occur in these tables (pandas `groupby`
would drop them and the converters re-check `pd.isna`). -/

/-- A row of a scanner amplification table: columns `Cycle`, `Well`,
`Channel`, `Amplification`, plus optional `Ct` and `SampleName` cells. -/
structure ARow where
  cycle : Int
  well : String
  channel : String
  amp : ℚ
  ct : Option ℚ := none
  sample : Option String := none
deriving DecidableEq, Repr

/-- A row of a scanner raw table: columns `Cycle`, `Well`, `Channel`,
`RawValue`. -/
structure RRow where
  cycle : Int
  well : String
  channel : String
  rawValue : ℚ
deriving DecidableEq, Repr

/-- `df.groupby(['Well', 'Channel'])`: the rows of each distinct
(well, channel) pair, in first-appearance key order (pandas sorts the
keys; no proved statement depends on the fold order of the groups). -/
def groupByWellChannel {α : Type} [DecidableEq α] (key : α → String × String)
    (rows : List α) : List ((String × String) × List α) :=
  (dedupFirst (rows.map key)).map fun k => (k, rows.filter fun r => key r = k)

/-- `group_df.sort_values('Cycle')` for amplification rows. -/
def sortARows (rows : List ARow) : List ARow :=
  sortBy (fun a b => a.cycle ≤ b.cycle) rows

/-- `group_df.sort_values('Cycle')` for raw rows. -/
def sortRRows (rows : List RRow) : List RRow :=
  sortBy (fun a b => a.cycle ≤ b.cycle) rows

/-- The length repair of the converters: with an established nonempty
cycle list, a longer value list is truncated and a shorter one is
zero-padded at the tail. -/
def repairLen (cycles : List Cell) (values : List ℚ) : List ℚ :=
  if ¬ cycles.isEmpty ∧ values.length ≠ cycles.length then
    if values.length > cycles.length then values.take cycles.length
    else values ++ List.replicate (cycles.length - values.length) 0
  else values

/-- The vendor-A auxiliary `well_data` entries (`extract_well_data`):
only a possible Ct is consumed by the converter. -/
structure WellInfoA where
  ct : Option ℚ := none
deriving DecidableEq, Repr

/-- `if not well.cycles: well.cycles = cycles` — the cycle list of the
first group observed for a well becomes its canonical cycle list. -/
def setCyclesIfEmpty (wd : WellData) (cycles : List Cell) : WellData :=
  if wd.cycles.isEmpty then { wd with cycles := cycles } else wd

/-- The `SampleName` attachment of the vendor-A amplification path: with
the column present, the first non-null sample of the sorted group. -/
def setSampleFirst (hasSample : Bool) (samples : List String) (wd : WellData) : WellData :=
  if hasSample then
    match samples with
    | s :: _ => { wd with sample_name := some s }
    | [] => wd
  else wd

/-- `well.channels[channel_name] = values` after the length repair. -/
def storeChannel (wd : WellData) (channel_name : String) (values : List ℚ) : WellData :=
  { wd with channels :=
      updateA wd.channels channel_name ((repairLen wd.cycles values).map Cell.num) }

/-- `well.raw_channels[channel_name] = values` after the length repair. -/
def storeRawChannel (wd : WellData) (channel_name : String) (values : List ℚ) : WellData :=
  { wd with raw_channels :=
      updateA wd.raw_channels channel_name ((repairLen wd.cycles values).map Cell.num) }

/-- The `Ct` attachment of the vendor-A amplification path: with the
column present, the first non-null Ct of the sorted group, stored without
any range check. -/
def setCtFirst (hasCt : Bool) (cts : List ℚ) (channel_name : String) (wd : WellData) :
    WellData :=
  if hasCt then
    match cts with
    | c :: _ => { wd with ct_values := updateA wd.ct_values channel_name c }
    | [] => wd
  else wd

/-- One amplification group step of `VendorAConverter.convert`.  `hasCt`
and `hasSample` record whether the table has the `Ct` / `SampleName`
column. -/
def vendorAAmpStep (hasCt hasSample : Bool) (wells : List (String × WellData))
    (g : (String × String) × List ARow) : List (String × WellData) :=
  let well_name := (strTrim g.1.1)
  let channel_name := (strTrim g.1.2)
  if channel_name ∈ structuralNames then wells
  else
    let well := (lookupA wells well_name).getD { well_name := well_name }
    let sorted := sortARows g.2
    let well := setCyclesIfEmpty well (sorted.map fun r => Cell.num r.cycle)
    let well := setSampleFirst hasSample (sorted.filterMap fun r => r.sample) well
    let well := storeChannel well channel_name (sorted.map fun r => r.amp)
    let well := setCtFirst hasCt (sorted.filterMap fun r => r.ct) channel_name well
    updateA wells well_name well

/-- The tail of the vendor-A raw path: only if the well still has no
cycle list, set it to the sorted distinct cycles of the group and attach
a Ct from the auxiliary `well_data` map (unchecked at this point). -/
def vendorARawTail (ctOpt : Option ℚ) (channel_name : String) (cycles : List Int)
    (wd : WellData) : WellData :=
  if wd.cycles.isEmpty then
    let wd2 := { wd with cycles := (sortInts (dedupFirst cycles)).map Cell.num }
    match ctOpt with
    | some c => { wd2 with ct_values := updateA wd2.ct_values channel_name c }
    | none => wd2
  else wd

/-- One raw group step of `VendorAConverter.convert`: store the (possibly
repaired) raw values, then run the cycle/Ct tail. -/
def vendorARawStep (well_data : List (String × WellInfoA))
    (wells : List (String × WellData))
    (g : (String × String) × List RRow) : List (String × WellData) :=
  let well_name := (strTrim g.1.1)
  let channel_name := (strTrim g.1.2)
  if channel_name ∈ structuralNames then wells
  else
    let well := (lookupA wells well_name).getD { well_name := well_name }
    let sorted := sortRRows g.2
    let well := storeRawChannel well channel_name (sorted.map fun r => r.rawValue)
    let well := vendorARawTail ((lookupA well_data well_name).bind (fun i => i.ct))
      channel_name (sorted.map fun r => r.cycle) well
    updateA wells well_name well

/-- `VendorAConverter.convert` on a scanner-shaped table: fold the
amplification groups, then the raw groups. -/
def vendorAConvert (amp : List ARow) (raw : List RRow)
    (well_data : List (String × WellInfoA)) : PCRDataModel :=
  let hasCt := amp.any fun r => r.ct.isSome
  let hasSample := amp.any fun r => r.sample.isSome
  let wells := (groupByWellChannel (fun r : ARow => (r.well, r.channel)) amp).foldl
    (vendorAAmpStep hasCt hasSample) []
  let wells := (groupByWellChannel (fun r : RRow => (r.well, r.channel)) raw).foldl
    (vendorARawStep well_data) wells
  { wells := wells }

/-- A row of the 7500 scanner amplification table: columns `Cycle`,
`Well`, `Channel`, `Amplification`. -/
structure Amp7Row where
  cycle : Int
  well : String
  channel : String
  amp : ℚ
deriving DecidableEq, Repr

/-- `sort_values('Cycle')` for 7500 amplification rows. -/
def sortAmp7Rows (rows : List Amp7Row) : List Amp7Row :=
  sortBy (fun a b => a.cycle ≤ b.cycle) rows

/-- One 7500 auxiliary `well_data` entry: the declared channels and sample
name from Sample Setup, and the per-channel Ct calls merged in from the
Results sheet.  In Python the Ct calls live directly under the channel-name
keys of the same dict whose other keys are the strings `channels` and
`sample_name`; the converter reads a Ct only after an `isinstance`
numeric check, which the values under `channels` and `sample_name` never
pass, so only the numeric channel entries are consumable as Ct. -/
structure WellInfo7 where
  sample_name : Option String := none
  channels : List String := []
  cts : List (String × ℚ) := []
deriving DecidableEq, Repr

/-- The sample-name attachment of the 7500 amplification path, read from
the auxiliary `well_data` map. -/
def setSampleFromInfo (sOpt : Option String) (wd : WellData) : WellData :=
  match sOpt with
  | some s => { wd with sample_name := some s }
  | none => wd

/-- The Ct attachment of the 7500 amplification path: a numeric entry of
the auxiliary map is stored only after the `(0, 42]` range check. -/
def setCtChecked (ctOpt : Option ℚ) (channel_name : String) (wd : WellData) : WellData :=
  match ctOpt with
  | some ct =>
    if 0 < ct ∧ ct ≤ 42
      then { wd with ct_values := updateA wd.ct_values channel_name ct }
      else wd
  | none => wd

/-- One amplification group step of `Vendor7500Converter.convert`. -/
def vendor7500AmpStep (well_data : List (String × WellInfo7))
    (wells : List (String × WellData))
    (g : (String × String) × List Amp7Row) : List (String × WellData) :=
  let well_name := (strTrim g.1.1)
  let channel_name := (strTrim g.1.2)
  if channel_name ∈ structuralNames then wells
  else
    let well := (lookupA wells well_name).getD { well_name := well_name }
    let sorted := sortAmp7Rows g.2
    let well := setCyclesIfEmpty well (sorted.map fun r => Cell.num r.cycle)
    let well := setSampleFromInfo
      ((lookupA well_data well_name).bind (fun i => i.sample_name)) well
    let well := storeChannel well channel_name (sorted.map fun r => r.amp)
    let well := setCtChecked
      ((lookupA well_data well_name).bind (fun i => lookupA i.cts channel_name))
      channel_name well
    updateA wells well_name well

/-- One raw group step of `Vendor7500Converter.convert`: unlike vendor A,
an empty cycle list is filled from the sorted group before the repair. -/
def vendor7500RawStep (wells : List (String × WellData))
    (g : (String × String) × List RRow) : List (String × WellData) :=
  let well_name := (strTrim g.1.1)
  let channel_name := (strTrim g.1.2)
  if channel_name ∈ structuralNames then wells
  else
    let well := (lookupA wells well_name).getD { well_name := well_name }
    let sorted := sortRRows g.2
    let well := setCyclesIfEmpty well (sorted.map fun r => Cell.num r.cycle)
    let well := storeRawChannel well channel_name (sorted.map fun r => r.rawValue)
    updateA wells well_name well

/-- `Vendor7500Converter.convert` on scanner-shaped tables. -/
def vendor7500Convert (amp : List Amp7Row) (raw : List RRow)
    (well_data : List (String × WellInfo7)) : PCRDataModel :=
  let wells := (groupByWellChannel (fun r : Amp7Row => (r.well, r.channel)) amp).foldl
    (vendor7500AmpStep well_data) []
  let wells := (groupByWellChannel (fun r : RRow => (r.well, r.channel)) raw).foldl
    vendor7500RawStep wells
  { wells := wells }

/-! ## The default converter

`DefaultConverter.convert` receives a generic DataFrame whose columns are
not fixed in advance, so it is modelled on an explicit column-list/rows
representation. -/

/-- A generic DataFrame: named columns over rows of cells.  pandas pads
ragged data, so cells are accessed with an `NaN` default. -/
structure DFrame where
  cols : List String
  rows : List (List Cell)
deriving DecidableEq, Repr

/-- Index of a column name (first occurrence). -/
def DFrame.colIdx (df : DFrame) (c : String) : Option Nat :=
  df.cols.findIdx? (fun x => x = c)

/-- `df[c].tolist()`: the column values, `NaN`-padded. -/
def DFrame.colVals (df : DFrame) (c : String) : List Cell :=
  match df.colIdx c with
  | some i => df.rows.map fun r => r.getD i Cell.na
  | none => []

/-- The well-column candidates of `DefaultConverter.convert`. -/
def defaultWellCols : List String := ["Well", "孔位", "well", "WellName"]

/-- `DefaultConverter.convert`.  All non-`Cycle` columns are treated as
channels; the cycle list is the full `Cycle` column (or `1..len(df)`);
with a well column present, each distinct well value keeps its own rows
for the channel values but the full-table cycle list, with no length
repair; without one, a single default well `A1` takes every column. -/
def defaultConvert (df : DFrame) : PCRDataModel :=
  if df.rows.isEmpty then { wells := [] }
  else
    let channels := df.cols.filter (fun c => c ≠ "Cycle")
    let cycles := if "Cycle" ∈ df.cols then df.colVals "Cycle"
      else (List.range df.rows.length).map (fun i => Cell.num (i + 1 : ℕ))
    let well_col := defaultWellCols.find? (fun c => c ∈ df.cols)
    match well_col with
    | some wc =>
      let wcIdx := (df.colIdx wc).getD 0
      let wells := (dedupFirst (df.colVals wc)).foldl (fun acc wcell =>
        if wcell.isna then acc
        else
          let well_rows := df.rows.filter (fun r => r.getD wcIdx Cell.na = wcell)
          let well_df : DFrame := { cols := df.cols, rows := well_rows }
          let well : WellData := { well_name := wcell.toStr, cycles := cycles }
          let well := channels.foldl (fun w ch =>
            let vals := (well_df.colVals ch).map fun c => if c.isna then Cell.num 0 else c
            { w with channels := updateA w.channels ch vals }) well
          updateA acc well.well_name well) []
      { wells := wells }
    | none =>
      let well : WellData := { well_name := "A1", cycles := cycles }
      let well := channels.foldl (fun w ch =>
        let vals := (df.colVals ch).map fun c => if c.isna then Cell.num 0 else c
        { w with channels := updateA w.channels ch vals }) well
      { wells := [("A1", well)] }

/-! ## Format detection (`ExcelParser.detect_vendor`) -/

/-- The pure sheet-name logic of `detect_vendor`: the 7500 multi-sheet
signatures are tried first, then the vendor-A marker sheet names, then the
generic fallback tag `default`. -/
def detectFromSheets (sheet_names : List String) : String :=
  let has_sample_setup := "Sample Setup" ∈ sheet_names
  let has_amplification := "Amplification Data" ∈ sheet_names
  let has_results := "Results" ∈ sheet_names
  let has_raw_data := "Raw Data" ∈ sheet_names
  if (has_sample_setup ∧ has_results) ∨ (has_amplification ∧ has_results ∧ has_raw_data)
    then "vendor_7500"
  else if sheet_names.any fun name =>
      containsSub name "实验数据" ∨ containsSub name "扩增曲线"
    then "vendor_a"
  else "default"

/-- The observable behaviour of one input file for `detect_vendor`: its
extension, and the sheet-name list each engine yields when it can open the
workbook (`none` models the engine raising on an unreadable file). -/
structure XFile where
  ext : String
  xlrdNames : Option (List String)
  openpyxlNames : Option (List String)
deriving DecidableEq, Repr

/-- `ExcelParser.detect_vendor`: for `.xls` files both engine failures are
caught (the second one resolving to the generic tag); for any other
extension `openpyxl.load_workbook` is called outside a handler, so an
unreadable file raises (`Except.error`). -/
def detectVendorFile (f : XFile) : Except Unit String :=
  if strLower f.ext = ".xls" then
    match f.xlrdNames with
    | some names => .ok (detectFromSheets names)
    | none =>
      match f.openpyxlNames with
      | some names => .ok (detectFromSheets names)
      | none => .ok "default"
  else
    match f.openpyxlNames with
    | some names => .ok (detectFromSheets names)
    | none => .error ()

/-! ## Worksheet grids and the scanner extract functions
(`excel_parser.py`)

A worksheet read with `header=None` is a rectangular DataFrame: pandas
pads every row to the sheet width with `NaN`.  A grid is kept as the raw
cell rows; `gridWidth` is the padded row length `len(row)` and `gridCell`
is `row.iloc[j]` with the padding applied. -/

/-- A worksheet as an untyped grid of cells. -/
def Grid : Type := List (List Cell)

/-- The padded row width of the sheet. -/
def gridWidth (g : Grid) : Nat :=
  (List.foldl (fun n (r : List Cell) => max n r.length) 0 g)

/-- `df.iloc[i]` padded to the grid width is accessed cellwise. -/
def rowCell (row : List Cell) (j : Nat) : Cell := row.getD j Cell.na

/-- The first row index in `range(min(k, len(df)))` whose joined text
contains every marker, the header search of the scanners. -/
def findHeaderRow (g : List (List Cell)) (k : Nat) (markers : List String) : Option Nat :=
  (List.range (min k g.length)).find? fun idx =>
    markers.all fun pat => containsSub (rowJoin (g.getD idx [])) pat

/-- The discovered column roles of `Vendor7500Parser.extract_amplification_data`:
later header matches overwrite earlier ones, as in the Python loop. -/
structure Amp7Cols where
  well_col : Option Nat := none
  cycle_col : Option Nat := none
  target_col : Option Nat := none
  rn_col : Option Nat := none
  delta_rn_col : Option Nat := none
deriving Repr

/-- The header scan of `Vendor7500Parser.extract_amplification_data`. -/
def scan7500AmpHeader (header : List Cell) (width : Nat) : Amp7Cols :=
  (List.range width).foldl (fun cols i =>
    let val := rowCell header i
    if val.isna then cols
    else
      let s := strTrim val.toStr
      if s = "Well" then { cols with well_col := some i }
      else if s = "Cycle" then { cols with cycle_col := some i }
      else if s = "Target Name" then { cols with target_col := some i }
      else if s = "Rn" then { cols with rn_col := some i }
      else if containsSub s "ΔRn" ∨ containsSub s "Delta Rn" ∨ containsSub s "dRn" then
        { cols with delta_rn_col := some i }
      else cols) {}

/-- The channel-label folding of the 7500 amplification scan: `JOE` is
folded to `VIC`, every other label (`HEX` included) is kept. -/
def map7500AmpChannel (target_name : String) : String :=
  if target_name = "JOE" then "VIC" else target_name

/-- The `JOE → VIC`-folded channel label of one row, `None` when the
Target Name column is missing or the cell is empty. -/
def extract7500AmpChannel (cols : Amp7Cols) (width : Nat) (row : List Cell) :
    Option String :=
  match cols.target_col with
  | none => none
  | some tc =>
    let tcell := rowCell row tc
    if tc ≥ width ∨ tcell.isna then none
    else some (map7500AmpChannel (strTrim tcell.toStr))

/-- The ΔRn-else-Rn amplification value of one row. -/
def extract7500AmpValue (cols : Amp7Cols) (width : Nat) (row : List Cell) :
    Option ℚ :=
  let amp_value : Option ℚ :=
    match cols.delta_rn_col with
    | some dc => if dc < width ∧ (rowCell row dc).notna then (rowCell row dc).toFloat else none
    | none => none
  match amp_value with
  | some v => some v
  | none =>
    match cols.rn_col with
    | some rc => if rc < width ∧ (rowCell row rc).notna then (rowCell row rc).toFloat else none
    | none => none

/-- One data row of `Vendor7500Parser.extract_amplification_data`, for
discovered well column `wc` and cycle column `cc`. -/
def extract7500AmpRow (cols : Amp7Cols) (wc cc width : Nat) (row : List Cell) :
    Option Amp7Row :=
  let wcell := rowCell row wc
  if wc ≥ width ∨ wcell.isna then none
  else
    let well_name := strTrim wcell.toStr
    if ¬ wellMatch well_name then none
    else
      let well_name := strUpper well_name
      let ccell := rowCell row cc
      if cc ≥ width ∨ ccell.isna then none
      else
        match ccell.toFloat with
        | none => none
        | some cq =>
          let cycle := ratTrunc cq
          match extract7500AmpChannel cols width row with
          | none => none
          | some channel_name =>
            if channel_name = "" then none
            else
              match extract7500AmpValue cols width row with
              | none => none
              | some v =>
                some { cycle := cycle, well := well_name,
                       channel := channel_name, amp := v }

/-- `Vendor7500Parser.extract_amplification_data`: header discovery by the
`Well`/`Cycle` marker text, then rowwise extraction with the `JOE → VIC`
folding and the ΔRn-else-Rn value preference. -/
def extract7500Amp (g : Grid) : List Amp7Row :=
  match findHeaderRow g 10 ["Well", "Cycle"] with
  | none => []
  | some header_row =>
    let width := gridWidth g
    let cols := scan7500AmpHeader (g.getD header_row []) width
    match cols.well_col, cols.cycle_col with
    | some wc, some cc =>
      ((g.drop (header_row + 1)).filterMap fun row => extract7500AmpRow cols wc cc width row)
    | _, _ => []

/-- The channel-label folding of `extract_ct_from_results`: both `HEX`
and `JOE` are folded to `VIC` before the Ct is stored. -/
def map7500CtChannel (target_name : String) : String :=
  if target_name = "HEX" ∨ target_name = "JOE" then "VIC" else target_name

/-- The Ct sentinel tokens recognised on the Results sheet. -/
def ctSentinels : List String := ["UNDETERMINED", "N/A", "N", "NA", ""]

/-- The header scan of `extract_ct_from_results`: only `Well` and
`Target Name` are discovered by text; the Ct column is the fixed offset 6. -/
def scanCtHeader (header : List Cell) (width : Nat) : Option Nat × Option Nat :=
  (List.range width).foldl (fun cols i =>
    let val := rowCell header i
    if val.isna then cols
    else
      let s := strTrim val.toStr
      if s = "Well" then (some i, cols.2)
      else if s = "Target Name" then (cols.1, some i)
      else cols) (none, none)

/-- One row step of `extract_ct_from_results`, updating the accumulated
nested `well → channel → ct` table. -/
def extractCtRow (well_col target_col ct_col width : Nat)
    (acc : List (String × List (String × ℚ))) (row : List Cell) :
    List (String × List (String × ℚ)) :=
  let wcell := rowCell row well_col
  if well_col ≥ width ∨ wcell.isna then acc
  else
    let well_name := strTrim wcell.toStr
    if ¬ wellMatch well_name then acc
    else
      let well_name := strUpper well_name
      let tcell := rowCell row target_col
      if target_col ≥ width ∨ tcell.isna then acc
      else
        let channel_name := map7500CtChannel (strTrim tcell.toStr)
        let ctcell := rowCell row ct_col
        if ct_col < width ∧ ctcell.notna then
          let sentinel := match ctcell with
            | .str s => ctSentinels.contains (strUpper (strTrim s))
            | _ => false
          if sentinel then acc
          else
            match ctcell.toFloat with
            | some ct_value =>
              if 0 < ct_value ∧ ct_value ≤ 42 then
                let m := (lookupA acc well_name).getD []
                updateA acc well_name (updateA m channel_name ct_value)
              else acc
            | none => acc
        else acc

/-- `Vendor7500Parser.extract_ct_from_results`: header discovery for
`Well` and `Target Name`, the fixed Ct offset 6, sentinel filtering, the
`HEX/JOE → VIC` folding and the `(0, 42]` range check. -/
def extractCtFromResults (g : Grid) : List (String × List (String × ℚ)) :=
  match findHeaderRow g 10 ["Well", "Target Name"] with
  | none => []
  | some header_row =>
    let width := gridWidth g
    let cols := scanCtHeader (g.getD header_row []) width
    if width > 6 then
      match cols.1, cols.2 with
      | some wc, some tc =>
        (g.drop (header_row + 1)).foldl (extractCtRow wc tc 6 width) []
      | _, _ => []
    else []

/-! ## The 7500 Multicomponent Data and Sample Setup scanners

`extract_amplification_data_from_multicomponent` reads per-cycle ΔRn
values from the fixed column offset 4 with the channel taken from the
`Target Name` column; `extract_raw_data_from_multicomponent` reads Rn
values from the fixed column offset 3 with the channel decided by which
dye-named header column carries a numeric cell in the row;
`extract_well_data_from_setup` collects the declared channels and sample
name of each well from the Sample Setup sheet. -/

/-- The discovered column roles of
`extract_amplification_data_from_multicomponent`: only `Well`, `Cycle`
and `Target Name` are found by header text (the ΔRn column is the fixed
offset 4); later header matches overwrite earlier ones. -/
structure MultiAmpCols where
  well_col : Option Nat := none
  cycle_col : Option Nat := none
  target_col : Option Nat := none
deriving Repr

/-- The header scan of `extract_amplification_data_from_multicomponent`. -/
def scanMultiAmpHeader (header : List Cell) (width : Nat) : MultiAmpCols :=
  (List.range width).foldl (fun cols i =>
    let val := rowCell header i
    if val.isna then cols
    else
      let s := strTrim val.toStr
      if s = "Well" then { cols with well_col := some i }
      else if s = "Cycle" then { cols with cycle_col := some i }
      else if s = "Target Name" then { cols with target_col := some i }
      else cols) {}

/-- The channel-label folding of the Multicomponent scans: `JOE` is
folded to `VIC` while `HEX` is explicitly kept as its own channel. -/
def mapMultiChannel (target_name : String) : String :=
  if target_name = "JOE" then "VIC"
  else if target_name = "HEX" then "HEX"
  else target_name

/-- One data row of `extract_amplification_data_from_multicomponent`:
well id match, integer cycle, `Target Name` channel with the
`JOE → VIC` folding, and the ΔRn value at the fixed offset 4. -/
def extractMultiAmpRow (wc cc tc width : Nat) (row : List Cell) :
    Option Amp7Row :=
  let wcell := rowCell row wc
  if wc ≥ width ∨ wcell.isna then none
  else
    let well_name := strTrim wcell.toStr
    if ¬ wellMatch well_name then none
    else
      let well_name := strUpper well_name
      let ccell := rowCell row cc
      if cc ≥ width ∨ ccell.isna then none
      else
        match ccell.toFloat with
        | none => none
        | some cq =>
          let cycle := ratTrunc cq
          let tcell := rowCell row tc
          if tc ≥ width ∨ tcell.isna then none
          else
            let channel_name := mapMultiChannel (strTrim tcell.toStr)
            let dcell := rowCell row 4
            if 4 ≥ width ∨ dcell.isna then none
            else
              match dcell.toFloat with
              | none => none
              | some delta_rn_value =>
                some { cycle := cycle, well := well_name,
                       channel := channel_name, amp := delta_rn_value }

/-- `Vendor7500Parser.extract_amplification_data_from_multicomponent`. -/
def extractMultiAmp (g : Grid) : List Amp7Row :=
  match findHeaderRow g 10 ["Well", "Cycle"] with
  | none => []
  | some header_row =>
    let width := gridWidth g
    let cols := scanMultiAmpHeader (g.getD header_row []) width
    match cols.well_col, cols.cycle_col, cols.target_col with
    | some wc, some cc, some tc =>
      (g.drop (header_row + 1)).filterMap fun row =>
        extractMultiAmpRow wc cc tc width row
    | _, _, _ => []

/-- The dye labels recognised as channel header columns by
`extract_raw_data_from_multicomponent`. -/
def multiDyeNames : List String := ["FAM", "JOE", "CY5", "ROX", "VIC", "HEX"]

/-- The discovered column roles of `extract_raw_data_from_multicomponent`:
`Well`, `Cycle`, and the dict from folded dye label to header column
(insertion order, a later duplicate label overwriting the stored column);
the Rn column is the fixed offset 3. -/
structure MultiRawCols where
  well_col : Option Nat := none
  cycle_col : Option Nat := none
  channel_cols : List (String × Nat) := []
deriving Repr

/-- The header scan of `extract_raw_data_from_multicomponent`. -/
def scanMultiRawHeader (header : List Cell) (width : Nat) : MultiRawCols :=
  (List.range width).foldl (fun cols i =>
    let val := rowCell header i
    if val.isna then cols
    else
      let s := strTrim val.toStr
      if s = "Well" then { cols with well_col := some i }
      else if s = "Cycle" then { cols with cycle_col := some i }
      else if s ∈ multiDyeNames then
        { cols with channel_cols := updateA cols.channel_cols (mapMultiChannel s) i }
      else cols) {}

/-- One data row of `extract_raw_data_from_multicomponent`: well id
match, integer cycle, the Rn value at the fixed offset 3, and the
channel decided by the first dye column (in dict order) holding a cell
that converts to a float. -/
def extractMultiRawRow (wc cc : Nat) (channel_cols : List (String × Nat))
    (width : Nat) (row : List Cell) : Option RRow :=
  let wcell := rowCell row wc
  if wc ≥ width ∨ wcell.isna then none
  else
    let well_name := strTrim wcell.toStr
    if ¬ wellMatch well_name then none
    else
      let well_name := strUpper well_name
      let ccell := rowCell row cc
      if cc ≥ width ∨ ccell.isna then none
      else
        match ccell.toFloat with
        | none => none
        | some cq =>
          let cycle := ratTrunc cq
          let rcell := rowCell row 3
          if 3 ≥ width ∨ rcell.isna then none
          else
            match rcell.toFloat with
            | none => none
            | some rn_value =>
              match channel_cols.find? (fun p =>
                  decide (p.2 < width) && (rowCell row p.2).notna &&
                    (rowCell row p.2).toFloat.isSome) with
              | none => none
              | some p =>
                some { cycle := cycle, well := well_name,
                       channel := p.1, rawValue := rn_value }

/-- `Vendor7500Parser.extract_raw_data_from_multicomponent`. -/
def extractMultiRaw (g : Grid) : List RRow :=
  match findHeaderRow g 10 ["Well", "Cycle"] with
  | none => []
  | some header_row =>
    let width := gridWidth g
    let cols := scanMultiRawHeader (g.getD header_row []) width
    match cols.well_col, cols.cycle_col with
    | some wc, some cc =>
      if cols.channel_cols.isEmpty then []
      else
        (g.drop (header_row + 1)).filterMap fun row =>
          extractMultiRawRow wc cc cols.channel_cols width row
    | _, _ => []

/-- One Sample Setup entry: the declared channel list and the sample
name (absent keys of the Python per-well dict are the defaults here). -/
structure SetupWell where
  channels : List String := []
  sample_name : Option String := none
deriving DecidableEq, Repr

/-- The discovered column roles of `extract_well_data_from_setup`. -/
structure SetupCols where
  well_col : Option Nat := none
  target_col : Option Nat := none
  sample_name_col : Option Nat := none
deriving Repr

/-- The header scan of `extract_well_data_from_setup`. -/
def scanSetupHeader (header : List Cell) (width : Nat) : SetupCols :=
  (List.range width).foldl (fun cols i =>
    let val := rowCell header i
    if val.isna then cols
    else
      let s := strTrim val.toStr
      if s = "Well" then { cols with well_col := some i }
      else if s = "Target Name" then { cols with target_col := some i }
      else if s = "Sample Name" then { cols with sample_name_col := some i }
      else cols) {}

/-- The channel-label folding of `extract_well_data_from_setup`: both
`HEX` and `JOE` are folded to `VIC` in the declared channel list. -/
def mapSetupChannel (target_name : String) : String :=
  if target_name = "HEX" ∨ target_name = "JOE" then "VIC" else target_name

/-- The channel append of `extract_well_data_from_setup`: the folded
channel is appended to the well's declared list if not yet present. -/
def setupAddChannel (e : SetupWell) (cn : String) : SetupWell :=
  if cn ∈ e.channels then e else { e with channels := e.channels ++ [cn] }

/-- The sample-name record of `extract_well_data_from_setup`: a nonempty
sample name is kept the first time it is seen. -/
def setupSetSample (e : SetupWell) (sOpt : Option String) : SetupWell :=
  match sOpt with
  | some s =>
    if s ≠ "" ∧ e.sample_name = none then { e with sample_name := some s }
    else e
  | none => e

/-- One row step of `extract_well_data_from_setup`: on a well id match
and a present `Target Name`, the folded channel and the sample name are
folded into the well's entry. -/
def setupRowStep (wc tc : Nat) (sCol : Option Nat) (width : Nat)
    (acc : List (String × SetupWell)) (row : List Cell) :
    List (String × SetupWell) :=
  let wcell := rowCell row wc
  if wc < width ∧ wcell.notna then
    let well_name := strTrim wcell.toStr
    if wellMatch well_name then
      let well_name := strUpper well_name
      let tcell := rowCell row tc
      if tc < width ∧ tcell.notna then
        let target_name := strTrim tcell.toStr
        let channel_name := mapSetupChannel target_name
        let sample_name : Option String :=
          match sCol with
          | some sc =>
            if sc < width ∧ (rowCell row sc).notna then
              some (strTrim (rowCell row sc).toStr)
            else none
          | none => none
        let entry := (lookupA acc well_name).getD {}
        updateA acc well_name
          (setupSetSample (setupAddChannel entry channel_name) sample_name)
      else acc
    else acc
  else acc

/-- `Vendor7500Parser.extract_well_data_from_setup`: header discovery by
the `Well`/`Target Name` marker text, then the rowwise channel and
sample collection with the `HEX/JOE → VIC` folding. -/
def extractWellDataFromSetup (g : Grid) : List (String × SetupWell) :=
  match findHeaderRow g 10 ["Well", "Target Name"] with
  | none => []
  | some header_row =>
    let width := gridWidth g
    let cols := scanSetupHeader (g.getD header_row []) width
    match cols.well_col, cols.target_col with
    | some wc, some tc =>
      (g.drop (header_row + 1)).foldl
        (setupRowStep wc tc cols.sample_name_col width) []
    | _, _ => []

/-! ## The vendor-A scanner (`VendorAParser`)

The 实验数据 sheet holds a dense results table announced by a header row
containing the marker 反应孔; the well id sits at the fixed offset 0, the
channel label at offset 6, the Ct at offset 12, the 42 processed cycle
cells at offsets 39..80 and the 42 raw cycle cells at offsets 82..123. -/

/-- The sample-name column search of
`extract_amplification_data_from_exp`: the first header cell whose text
contains one of the sample keywords. -/
def findSampleCol (header : List Cell) (width : Nat) : Option Nat :=
  (List.range width).find? fun i =>
    let val := rowCell header i
    val.notna ∧
      (containsSub val.toStr "样本名称" ∨ containsSub val.toStr "样本" ∨
       containsSub (strUpper val.toStr) "SAMPLE" ∨
       containsSub val.toStr "样品名称" ∨ containsSub val.toStr "样品")

/-- The fixed-width cycle-cell loop shared by the two vendor-A block
extractors.  `accept` is the per-vendor value range; a missing cell or a
failed float conversion advances the cycle counter without emitting a
value, while a parsed value outside the accepted range emits nothing and
leaves the cycle counter unchanged (as in the source). -/
def vendorACellLoop (row : List Cell) (startCol stopCol : Nat)
    (accept : ℚ → Bool) : List (Int × ℚ) :=
  (((List.range' startCol (stopCol - startCol)).foldl (fun st col =>
    let (cyc, out) := st
    let val := rowCell row col
    if val.isna then (cyc + 1, out)
    else
      match val.toFloat with
      | none => (cyc + 1, out)
      | some v =>
        if accept v then (cyc + 1, out ++ [(cyc, v)]) else (cyc, out))
    ((1 : Int), ([] : List (Int × ℚ))))).2

/-- `VendorAParser.extract_amplification_data_from_exp`.  The search for
a column of header text `1.0` (`data_start_col`) is performed by the
source but its result is never used — the block always starts at the
hard-coded offset 39 — so it is not modelled. -/
def extractVendorAAmp (g : Grid) : List ARow :=
  match findHeaderRow g 20 ["反应孔"] with
  | none => []
  | some header_row =>
    let width := gridWidth g
    let sample_col := findSampleCol (g.getD header_row []) width
    (g.drop (header_row + 1)).foldl (fun acc row =>
      let wcell := rowCell row 0
      if wcell.isna then acc
      else
        let well_str := strTrim wcell.toStr
        if ¬ wellMatch well_str then acc
        else
          let well_name := strUpper well_str
          let sample_name : Option String :=
            match sample_col with
            | some sc => if sc < width ∧ (rowCell row sc).notna
                then some (strTrim (rowCell row sc).toStr) else none
            | none => none
          let channel_name : Option String :=
            if (rowCell row 6).notna then some (strTrim (rowCell row 6).toStr) else none
          let ct_value : Option ℚ :=
            if (rowCell row 12).notna then (rowCell row 12).toFloat else none
          if 39 < width then
            let cells := vendorACellLoop row 39 (min 81 width)
              (fun v => -100 < v ∧ v < 10000)
            acc ++ cells.map fun cv =>
              { cycle := cv.1, well := well_name,
                channel := match channel_name with
                  | some c => if c = "" then "Unknown" else c
                  | none => "Unknown",
                amp := cv.2,
                ct := if cv.1 = 1 ∧ ct_value.isSome then ct_value else none,
                sample := match sample_name with
                  | some s => if s = "" then none else some s
                  | none => none }
          else acc) []

/-- `VendorAParser.extract_raw_data_from_exp`: the raw block at offsets
82..123 with the wider accepted range; a missing or unparsable cell
advances the cycle counter without emitting a row, so that cycle is
simply absent from the intermediate table. -/
def extractVendorARaw (g : Grid) : List RRow :=
  match findHeaderRow g 20 ["反应孔"] with
  | none => []
  | some header_row =>
    let width := gridWidth g
    (g.drop (header_row + 1)).foldl (fun acc row =>
      let wcell := rowCell row 0
      if wcell.isna then acc
      else
        let well_str := strTrim wcell.toStr
        if ¬ wellMatch well_str then acc
        else
          let well_name := strUpper well_str
          let channel_name : Option String :=
            if (rowCell row 6).notna then some (strTrim (rowCell row 6).toStr) else none
          if 82 < width then
            let cells := vendorACellLoop row 82 (min 124 width)
              (fun v => -100 < v ∧ v < 100000)
            acc ++ cells.map fun cv =>
              { cycle := cv.1, well := well_name,
                channel := match channel_name with
                  | some c => if c = "" then "Unknown" else c
                  | none => "Unknown",
                rawValue := cv.2 }
          else acc) []

/-- `VendorAParser.extract_well_data`: every cell of the sheet matching
the well pattern opens an entry; the first value within the next nine
columns that parses as a float in `(0, 42]` becomes its Ct. -/
def extractVendorAWellData (g : Grid) : List (String × WellInfoA) :=
  let width := gridWidth g
  g.foldl (fun acc row =>
    (List.range width).foldl (fun acc2 col_idx =>
      let val := rowCell row col_idx
      if val.isna then acc2
      else
        let val_str := strTrim val.toStr
        if ¬ wellMatch val_str then acc2
        else
          let well_name := strUpper val_str
          let stop := min (col_idx + 10) width
          let ct := ((List.range' (col_idx + 1) (stop - (col_idx + 1))).filterMap
            fun next_col =>
              let nval := rowCell row next_col
              if nval.isna then none
              else match nval.toFloat with
                | some c => if 0 < c ∧ c ≤ 42 then some c else none
                | none => none).head?
          updateA acc2 well_name { ct := ct }) acc) []

/-! ## Invariant predicates

The predicates below name the invariants that the claims of §3 and §8 of
the specification assert over converter outputs. -/

/-- The per-well length invariant: every processed-signal sequence has
the length of the well's cycle list, and a well with stored channels has a
nonempty cycle list. -/
def WellLenInv (wd : WellData) : Prop :=
  (∀ ch l, lookupA wd.channels ch = some l → l.length = wd.cycles.length) ∧
  (wd.channels = [] ∨ wd.cycles ≠ [])

/-- The length invariant over a whole wells map. -/
def WellsLenInv (wells : List (String × WellData)) : Prop :=
  ∀ w wd, lookupA wells w = some wd → WellLenInv wd

/-- The Ct range invariant of one well: every stored Ct lies in `(0, 42]`. -/
def WellCtInv (wd : WellData) : Prop :=
  ∀ ch q, lookupA wd.ct_values ch = some q → 0 < q ∧ q ≤ 42

/-- The Ct range invariant over a whole wells map. -/
def WellsCtInv (wells : List (String × WellData)) : Prop :=
  ∀ w wd, lookupA wells w = some wd → WellCtInv wd

/-- The Ct range invariant of a nested `well → channel → ct` table. -/
def CtTableInv (t : List (String × List (String × ℚ))) : Prop :=
  ∀ w m, lookupA t w = some m → ∀ ch q, lookupA m ch = some q → 0 < q ∧ q ≤ 42

/-- No structural name is a channel key of the well, in either map. -/
def WellChanInv (wd : WellData) : Prop :=
  (∀ ch ∈ keysA wd.channels, ch ∉ structuralNames) ∧
  (∀ ch ∈ keysA wd.raw_channels, ch ∉ structuralNames)

/-- The channel-key invariant over a wells map, in membership form. -/
def WellsChanInv (wells : List (String × WellData)) : Prop :=
  ∀ p ∈ wells, WellChanInv p.2

/-- The key shape of the Results-sheet Ct table: neither `JOE` nor `HEX`
survives as a channel key. -/
def CtKeysInv (t : List (String × List (String × ℚ))) : Prop :=
  ∀ w m, lookupA t w = some m → ∀ ch ∈ keysA m, ch ≠ "JOE" ∧ ch ≠ "HEX"

/-- The channel shape of the Sample Setup well data: neither `JOE` nor
`HEX` survives in any declared channel list. -/
def SetupChanInv (t : List (String × SetupWell)) : Prop :=
  ∀ w e, lookupA t w = some e → ∀ ch ∈ e.channels, ch ≠ "JOE" ∧ ch ≠ "HEX"

/-- The dye-column dict of the Multicomponent raw header scan never
carries a `JOE` key. -/
def MultiRawColsInv (cols : MultiRawCols) : Prop :=
  ∀ k ∈ keysA cols.channel_cols, k ≠ "JOE"

/-! ## Specification-side predicates for the detector (§4.1)

These two predicates are written from the words of the specification, to
be compared with `detectFromSheets`. -/

/-- Spec §4.1: a 7500-style signature requires either both of
`Sample Setup` and `Results`, or all three of `Amplification Data`,
`Results` and `Raw Data`. -/
def spec7500Signature (names : List String) : Prop :=
  ("Sample Setup" ∈ names ∧ "Results" ∈ names) ∨
  ("Amplification Data" ∈ names ∧ "Results" ∈ names ∧ "Raw Data" ∈ names)

/-- Spec §4.1: a vendor-A signature requires a sheet name containing a
vendor-specific marker substring. -/
def specVendorAMarker (names : List String) : Prop :=
  ∃ n ∈ names, containsSub n "实验数据" = true ∨ containsSub n "扩增曲线" = true

instance (names : List String) : Decidable (spec7500Signature names) := by
  unfold spec7500Signature
  infer_instance

instance (names : List String) : Decidable (specVendorAMarker names) := by
  unfold specVendorAMarker
  exact List.decidableBEx _ names

/-! ## Concrete inputs used by the counterexamples and witnesses -/

/-- A vendor-A 实验数据 sheet whose single data row carries the Ct `45`
at the fixed Ct offset 12 and a complete 42-cell processed block. -/
def vendorACtGrid : Grid :=
  [[Cell.str "反应孔"],
   [Cell.str "A1"] ++ List.replicate 5 Cell.na ++ [Cell.str "FAM"] ++
     List.replicate 5 Cell.na ++ [Cell.num 45] ++ List.replicate 26 Cell.na ++
     (List.range 42).map (fun i => Cell.num (i + 1 : ℕ))]

/-- A vendor-A 实验数据 sheet with a complete 42-cell processed block and
a 42-cell raw block whose fifth cell (the cycle-5 position) is missing;
the other raw cells hold `100 + i` at offset `i`. -/
def vendorARawGapGrid : Grid :=
  [[Cell.str "反应孔"],
   [Cell.str "A1"] ++ List.replicate 5 Cell.na ++ [Cell.str "FAM"] ++
     List.replicate 32 Cell.na ++
     (List.range 42).map (fun i => Cell.num (i + 1 : ℕ)) ++
     [Cell.na] ++
     (List.range 42).map (fun i => if i = 4 then Cell.na else Cell.num (100 + i : ℕ))]

/-- The raw sequence the converter stores for `vendorARawGapGrid`: the
41 surviving raw values, zero-padded at the tail. -/
def rawGapStored : List Cell :=
  ((List.range 41).map fun i =>
    Cell.num (if i < 4 then (100 + i : ℕ) else (101 + i : ℕ))) ++ [Cell.num 0]

/-- A 7500 Results sheet whose single call row carries target `HEX` with
Ct `20` at the fixed Ct offset 6. -/
def hexResultsGrid : Grid :=
  [[Cell.str "Well", Cell.str "Target Name", Cell.na, Cell.na, Cell.na, Cell.na, Cell.na],
   [Cell.str "A1", Cell.str "HEX", Cell.na, Cell.na, Cell.na, Cell.na, Cell.num 20]]

/-- A 7500 Amplification Data sheet with one `HEX` row and one `JOE` row. -/
def hexAmpGrid : Grid :=
  [[Cell.str "Well", Cell.str "Cycle", Cell.str "Target Name", Cell.str "Rn"],
   [Cell.str "A1", Cell.num 1, Cell.str "HEX", Cell.num 2],
   [Cell.str "A1", Cell.num 2, Cell.str "JOE", Cell.num 3]]

/-- A Multicomponent Data sheet with one `HEX` call row and one `JOE`
call row; the ΔRn values sit at the fixed offset 4. -/
def hexMultiAmpGrid : Grid :=
  [[Cell.str "Well", Cell.str "Cycle", Cell.str "Target Name",
    Cell.str "Rn", Cell.str "dRn"],
   [Cell.str "A1", Cell.num 1, Cell.str "HEX", Cell.num 1, Cell.num 2],
   [Cell.str "A1", Cell.num 2, Cell.str "JOE", Cell.num 1, Cell.num 3]]

/-- A Multicomponent Data sheet whose dye header columns are `HEX` and
`JOE`; the Rn values sit at the fixed offset 3, and each data row marks
its dye column with a numeric cell. -/
def hexMultiRawGrid : Grid :=
  [[Cell.str "Well", Cell.str "Cycle", Cell.na, Cell.na, Cell.na,
    Cell.str "HEX", Cell.str "JOE"],
   [Cell.str "A1", Cell.num 1, Cell.na, Cell.num 50, Cell.na,
    Cell.num 7, Cell.na],
   [Cell.str "A1", Cell.num 2, Cell.na, Cell.num 60, Cell.na,
    Cell.na, Cell.num 8]]

/-- A Sample Setup sheet declaring a `HEX` target for well `A1`. -/
def hexSetupGrid : Grid :=
  [[Cell.str "Well", Cell.str "Target Name", Cell.str "Sample Name"],
   [Cell.str "A1", Cell.str "HEX", Cell.str "S1"]]

/-- A generic table with a well column and two wells of two cycles each:
the full-table cycle column has four entries while each well contributes
two values. -/
def defaultMultiWellTable : DFrame where
  cols := ["Cycle", "Well", "FAM"]
  rows := [[Cell.num 1, Cell.str "A1", Cell.num 5], [Cell.num 2, Cell.str "A1", Cell.num 6],
           [Cell.num 1, Cell.str "A2", Cell.num 7], [Cell.num 2, Cell.str "A2", Cell.num 8]]

/-- A generic table with a column literally named `RawValue`. -/
def rawValueColTable : DFrame where
  cols := ["Cycle", "RawValue"]
  rows := [[Cell.num 1, Cell.num 9], [Cell.num 2, Cell.num 10]]

/-- A well holding only `VIC` processed data. -/
def hexVicWell : WellData where
  well_name := "B1"
  channels := [("VIC", [Cell.num 7, Cell.num 8])]
  cycles := [Cell.num 1, Cell.num 2]

/-- A model holding only `hexVicWell`. -/
def hexVicModel : PCRDataModel := { wells := [("B1", hexVicWell)] }

/-- A well whose raw map holds the key `FAM` with an empty sequence while
the processed map holds data for `FAM`. -/
def emptyRawWell : WellData where
  well_name := "A1"
  channels := [("FAM", [Cell.num 5])]
  raw_channels := [("FAM", [])]
  cycles := [Cell.num 1]

/-- A model holding only `emptyRawWell`. -/
def emptyRawModel : PCRDataModel := { wells := [("A1", emptyRawWell)] }

/-- A well with processed `FAM` data and no raw map at all. -/
def rawFallbackWell : WellData where
  well_name := "A1"
  channels := [("FAM", [Cell.num 5])]
  cycles := [Cell.num 1]

/-- A model holding only `rawFallbackWell`. -/
def rawFallbackModel : PCRDataModel := { wells := [("A1", rawFallbackWell)] }

/-- The §8 round-trip table: well `A1`, channel `FAM`, cycles `1..40`,
one value per cycle taken from `vs`. -/
def c9Rows (vs : List ℚ) : List Amp7Row :=
  (List.range 40).map fun i =>
    { cycle := Int.ofNat i + 1, well := "A1", channel := "FAM", amp := vs.getD i 0 }

/-- A full 42-cycle vendor-A amplification group over values `ws`. -/
def c8AmpRows (ws : List ℚ) : List ARow :=
  (List.range 42).map fun i =>
    { cycle := Int.ofNat i + 1, well := "A1", channel := "FAM", amp := ws.getD i 0 }

/-- The cycle numbers of a 42-cycle raw row whose cycle-5 cell was
dropped by the scanner: `1,2,3,4,6,...,42`. -/
def c8HoleCycle (i : Nat) : Int :=
  if i < 4 then Int.ofNat i + 1 else Int.ofNat i + 2

/-- The 41-row raw group left over after the scanner dropped cycle 5. -/
def c8RawRows (vs : List ℚ) : List RRow :=
  (List.range 41).map fun i =>
    { cycle := c8HoleCycle i, well := "A1", channel := "FAM", rawValue := vs.getD i 0 }

/-- A one-row amplification table used to witness the converter
invariants. -/
def ampWitnessRow : ARow := { cycle := 1, well := "A1", channel := "FAM", amp := 3 }

/-- The well `VendorAConverter` builds from `ampWitnessRow`. -/
def ampWitnessWell : WellData where
  well_name := "A1"
  channels := [("FAM", [Cell.num 3])]
  cycles := [Cell.num 1]

/-- A one-row 7500 amplification table used to witness the converter
invariants. -/
def amp7WitnessRow : Amp7Row := { cycle := 1, well := "A1", channel := "FAM", amp := 3 }

/-- A 7500 auxiliary entry carrying an in-range Ct for `FAM`. -/
def info7Witness : WellInfo7 := { cts := [("FAM", 20)] }

/-- The well `Vendor7500Converter` builds from `amp7WitnessRow` and
`info7Witness`. -/
def ct7WitnessWell : WellData where
  well_name := "A1"
  channels := [("FAM", [Cell.num 3])]
  cycles := [Cell.num 1]
  ct_values := [("FAM", 20)]

/-- The well the 7500 converter builds from `c9Rows vs`. -/
def c9Well (vs : List ℚ) : WellData where
  well_name := "A1"
  channels := [("FAM", (List.range 40).map fun i => Cell.num (vs.getD i 0))]
  cycles := (List.range 40).map fun i => Cell.num (Int.ofNat i + 1)

/-- The well the vendor-A converter builds from `c8AmpRows ws` before
the raw group is processed. -/
def c8Well (ws : List ℚ) : WellData where
  well_name := "A1"
  channels := [("FAM", (List.range 42).map fun i => Cell.num (ws.getD i 0))]
  cycles := (List.range 42).map fun i => Cell.num (Int.ofNat i + 1)

/-- The well the vendor-A converter builds from `c8AmpRows ws` and
`c8RawRows vs`: the raw sequence is `vs` zero-padded at the tail. -/
def c8PaddedWell (vs ws : List ℚ) : WellData where
  well_name := "A1"
  channels := [("FAM", (List.range 42).map fun i => Cell.num (ws.getD i 0))]
  raw_channels := [("FAM", (vs ++ [0]).map Cell.num)]
  cycles := (List.range 42).map fun i => Cell.num (Int.ofNat i + 1)

/-- Concrete §8 round-trip values. -/
def c9WitnessVals : List ℚ := (List.range 40).map fun i => (2 * i : ℕ)

/-- Concrete raw values for the tail-padding witness. -/
def c8WitnessRawVals : List ℚ := (List.range 41).map fun i => (100 + i : ℕ)

/-- Concrete processed values for the tail-padding witness. -/
def c8WitnessAmpVals : List ℚ := (List.range 42).map fun i => (i + 1 : ℕ)

/-! ## Helper lemmas on the embedding primitives -/

theorem lookupA_updateA {α : Type} (l : List (String × α)) (k k' : String) (v : α) :
    lookupA (updateA l k v) k' = if k' = k then some v else lookupA l k' := by
  induction l with
  | nil =>
    simp only [updateA, lookupA]
    by_cases h : k = k'
    · subst h; simp
    · have h2 : ¬ k' = k := fun hh => h hh.symm
      simp [h, h2]
  | cons hd tl ih =>
    obtain ⟨hk, hv⟩ := hd
    simp only [updateA]
    by_cases h1 : hk = k
    · subst h1
      simp only [if_pos rfl, lookupA]
      by_cases h2 : hk = k'
      · subst h2; simp
      · have h2b : ¬ k' = hk := fun hh => h2 hh.symm
        simp [h2, h2b]
    · simp only [if_neg h1, lookupA]
      by_cases h2 : hk = k'
      · subst h2
        simp [if_neg h1]
      · simp [h2, ih]

theorem foldl_preserves {α σ : Type} (P : σ → Prop) (f : σ → α → σ) :
    ∀ (l : List α) (s : σ), (∀ a ∈ l, ∀ t, P t → P (f t a)) → P s → P (List.foldl f s l) := by
  intro l
  induction l with
  | nil => intro s _ hs; simpa using hs
  | cons a rest ih =>
    intro s hstep hs
    simp only [List.foldl_cons]
    exact ih (f s a) (fun b hb t ht => hstep b (List.mem_cons_of_mem a hb) t ht)
      (hstep a (List.mem_cons_self a rest) s hs)

theorem mem_insertBy {α : Type} (le : α → α → Bool) (x a : α) (l : List α) :
    a ∈ insertBy le x l ↔ a = x ∨ a ∈ l := by
  induction l with
  | nil => simp [insertBy]
  | cons b t ih =>
    by_cases h : le b x = true
    · simp only [insertBy, if_pos h, List.mem_cons, ih]
      tauto
    · simp only [insertBy, if_neg h, List.mem_cons]

theorem mem_sortBy {α : Type} (le : α → α → Bool) (a : α) (l : List α) :
    a ∈ sortBy le l ↔ a ∈ l := by
  induction l with
  | nil => simp [sortBy]
  | cons b t ih => simp [sortBy, mem_insertBy, ih]

theorem mem_dedupFirst {α : Type} [DecidableEq α] (a : α) (l : List α) :
    a ∈ dedupFirst l ↔ a ∈ l := by
  have key : ∀ (l : List α) (acc : List α),
      (a ∈ l.foldl (fun acc k => if k ∈ acc then acc else acc ++ [k]) acc ↔ a ∈ l ∨ a ∈ acc) := by
    intro l
    induction l with
    | nil => intro acc; simp
    | cons b t ih =>
      intro acc
      by_cases h : b ∈ acc
      · simp only [List.foldl_cons, if_pos h, ih]
        constructor
        · rintro (h1 | h1) <;> tauto
        · rintro (h1 | h1)
          · rcases List.mem_cons.mp h1 with h2 | h2
            · subst h2; tauto
            · tauto
          · tauto
      · simp only [List.foldl_cons, if_neg h, ih, List.mem_append, List.mem_singleton,
          List.mem_cons]
        tauto
  simpa using key l []

theorem insertBy_eq_cons {α : Type} (le : α → α → Bool) (x : α) (l : List α)
    (h : ∀ b ∈ l, le b x = false) : insertBy le x l = x :: l := by
  cases l with
  | nil => rfl
  | cons b t =>
    have hb : le b x = false := h b (List.mem_cons_self b t)
    simp [insertBy, hb]

theorem sortBy_eq_self {α : Type} (le : α → α → Bool) (l : List α)
    (h : l.Pairwise fun x y => le y x = false) : sortBy le l = l := by
  induction l with
  | nil => rfl
  | cons a t ih =>
    have ht : t.Pairwise fun x y => le y x = false := h.of_cons
    have ha : ∀ b ∈ t, le b a = false := fun b hb => (List.pairwise_cons.mp h).1 b hb
    rw [sortBy, ih ht, insertBy_eq_cons le a t ha]

theorem map_getD_range_eq_take {α : Type} (l : List α) (k : Nat) (d : α) (h : k ≤ l.length) :
    (List.range k).map (fun i => l.getD i d) = l.take k := by
  apply List.ext_getElem
  · simp [Nat.min_eq_left h]
  · intro i h1 h2
    simp only [List.getElem_map, List.getElem_range, List.getElem_take]
    have hi : i < l.length := lt_of_lt_of_le (by simpa using h1) h
    simp [List.getD_eq_getElem, hi]

theorem repairLen_length (cycles : List Cell) (values : List ℚ) (h : cycles ≠ []) :
    (repairLen cycles values).length = cycles.length := by
  rw [repairLen]
  split
  next hcond =>
    obtain ⟨hc1, hc2⟩ := hcond
    split
    next h2 => rw [List.length_take]; omega
    next h2 => simp only [List.length_append, List.length_replicate]; omega
  next hcond =>
    have heq : values.length = cycles.length := by
      by_contra hne
      exact hcond ⟨by simpa [List.isEmpty_iff] using h, hne⟩
    exact heq

theorem repairLen_eq_self (cycles : List Cell) (values : List ℚ)
    (h : values.length = cycles.length) : repairLen cycles values = values := by
  simp [repairLen, h]

theorem repairLen_pad (cycles : List Cell) (values : List ℚ)
    (hne : cycles ≠ []) (h : values.length < cycles.length) :
    repairLen cycles values = values ++ List.replicate (cycles.length - values.length) 0 := by
  have hne2 : ¬ cycles.isEmpty := by simpa [List.isEmpty_iff] using hne
  have h1 : values.length ≠ cycles.length := Nat.ne_of_lt h
  have h2 : ¬ values.length > cycles.length := by omega
  rw [repairLen, if_pos ⟨hne2, h1⟩, if_neg h2]

theorem groupByWellChannel_mem {α : Type} [DecidableEq α] (key : α → String × String)
    (rows : List α) (g : (String × String) × List α)
    (hg : g ∈ groupByWellChannel key rows) :
    g.2 ≠ [] ∧ ∀ r ∈ g.2, key r = g.1 := by
  rw [groupByWellChannel] at hg
  obtain ⟨k, hk, hkg⟩ := List.mem_map.mp hg
  subst hkg
  refine ⟨?_, ?_⟩
  · have hk2 : k ∈ rows.map key := (mem_dedupFirst k (rows.map key)).mp hk
    obtain ⟨r, hr, hrk⟩ := List.mem_map.mp hk2
    intro hempty
    simp only at hempty
    have hmem : r ∈ rows.filter fun r => key r = k := by
      simp only [List.mem_filter]
      exact ⟨hr, by simp [hrk]⟩
    rw [hempty] at hmem
    exact absurd hmem (List.not_mem_nil r)
  · intro r hr
    have := (List.mem_filter.mp hr).2
    simpa using this

theorem dedupFirst_const {α : Type} [DecidableEq α] (l : List α) (k : α)
    (h : ∀ a ∈ l, a = k) (hne : l ≠ []) : dedupFirst l = [k] := by
  have key : ∀ (l : List α), (∀ a ∈ l, a = k) →
      l.foldl (fun acc a => if a ∈ acc then acc else acc ++ [a]) [k] = [k] := by
    intro l
    induction l with
    | nil => intro _; rfl
    | cons b t ih =>
      intro hall
      have hb : b = k := hall b (List.mem_cons_self b t)
      subst hb
      simp only [List.foldl_cons, List.mem_singleton, if_pos rfl]
      exact ih fun a ha => hall a (List.mem_cons_of_mem b ha)
  cases l with
  | nil => exact absurd rfl hne
  | cons b t =>
    have hb : b = k := h b (List.mem_cons_self b t)
    subst hb
    rw [dedupFirst]
    simp only [List.foldl_cons, List.not_mem_nil, if_neg (List.not_mem_nil b), List.nil_append]
    exact key t fun a ha => h a (List.mem_cons_of_mem b ha)

theorem filter_eq_self_of_all {α : Type} (p : α → Bool) (l : List α)
    (h : ∀ a ∈ l, p a = true) : l.filter p = l :=
  List.filter_eq_self.mpr h

theorem groupByWellChannel_single {α : Type} [DecidableEq α] (key : α → String × String)
    (rows : List α) (k : String × String)
    (h : ∀ r ∈ rows, key r = k) (hne : rows ≠ []) :
    groupByWellChannel key rows = [(k, rows)] := by
  rw [groupByWellChannel]
  have h1 : dedupFirst (rows.map key) = [k] := by
    apply dedupFirst_const
    · intro a ha
      obtain ⟨r, hr, hrk⟩ := List.mem_map.mp ha
      rw [← hrk]; exact h r hr
    · simpa using hne
  rw [h1]
  simp only [List.map_cons, List.map_nil]
  congr 1
  · congr 1
    apply filter_eq_self_of_all
    intro r hr
    simp [h r hr]

theorem insertBy_length {α : Type} (le : α → α → Bool) (x : α) (l : List α) :
    (insertBy le x l).length = l.length + 1 := by
  induction l with
  | nil => rfl
  | cons b t ih =>
    by_cases h : le b x = true
    · simp [insertBy, h, ih]
    · simp [insertBy, h]

theorem sortBy_length {α : Type} (le : α → α → Bool) (l : List α) :
    (sortBy le l).length = l.length := by
  induction l with
  | nil => rfl
  | cons b t ih => simp [sortBy, insertBy_length, ih]

theorem sortBy_ne_nil {α : Type} (le : α → α → Bool) (l : List α) (h : l ≠ []) :
    sortBy le l ≠ [] := by
  intro hc
  have := sortBy_length le l
  rw [hc] at this
  simp at this
  exact h (List.length_eq_zero.mp this.symm)

/-! ## The processed-length invariant of the converters -/

theorem WellLenInv_default (name : String) : WellLenInv { well_name := name } := by
  constructor
  · intro ch l h
    simp [lookupA] at h
  · left; rfl

theorem WellLenInv_congr (wd wd' : WellData) (hc : wd'.channels = wd.channels)
    (hy : wd'.cycles = wd.cycles) (h : WellLenInv wd) : WellLenInv wd' := by
  constructor
  · intro ch l hl
    rw [hc] at hl
    rw [hy]
    exact h.1 ch l hl
  · rw [hc, hy]
    exact h.2

theorem WellLenInv_getD (wells : List (String × WellData)) (name : String)
    (hw : WellsLenInv wells) :
    WellLenInv ((lookupA wells name).getD { well_name := name }) := by
  cases hlk : lookupA wells name with
  | none => simpa [hlk] using WellLenInv_default name
  | some wd => simpa [hlk] using hw name wd hlk

theorem WellLenInv_setCycles (wd : WellData) (newCycles : List Cell)
    (hnc : newCycles ≠ []) (h : WellLenInv wd) :
    WellLenInv (if wd.cycles.isEmpty then { wd with cycles := newCycles } else wd) ∧
    (if wd.cycles.isEmpty then { wd with cycles := newCycles } else wd).cycles ≠ [] := by
  by_cases he : wd.cycles.isEmpty
  · have hcy : wd.cycles = [] := List.isEmpty_iff.mp he
    have hch : wd.channels = [] := by
      rcases h.2 with h2 | h2
      · exact h2
      · exact absurd hcy h2
    rw [if_pos he]
    refine ⟨⟨?_, ?_⟩, hnc⟩
    · intro ch l hl
      rw [show ({ wd with cycles := newCycles } : WellData).channels = wd.channels from rfl,
        hch] at hl
      simp [lookupA] at hl
    · left; exact hch
  · rw [if_neg he]
    exact ⟨h, fun hc => he (by simp [hc, List.isEmpty_iff])⟩

theorem WellLenInv_store (wd : WellData) (ch : String) (vals : List ℚ)
    (hcy : wd.cycles ≠ []) (h : WellLenInv wd) :
    WellLenInv { wd with
      channels := updateA wd.channels ch ((repairLen wd.cycles vals).map Cell.num) } := by
  constructor
  · intro ch' l hl
    simp only at hl
    rw [lookupA_updateA] at hl
    by_cases he : ch' = ch
    · rw [if_pos he] at hl
      cases hl
      simp only [List.length_map]
      exact repairLen_length wd.cycles vals hcy
    · rw [if_neg he] at hl
      exact h.1 ch' l hl
  · right
    exact hcy

theorem WellLenInv_rawStore (wd : WellData) (ch : String) (vals : List Cell)
    (h : WellLenInv wd) :
    WellLenInv { wd with raw_channels := updateA wd.raw_channels ch vals } :=
  WellLenInv_congr _ wd rfl rfl h

theorem WellsLenInv_updateA (wells : List (String × WellData)) (name : String)
    (wd : WellData) (hw : WellsLenInv wells) (hwd : WellLenInv wd) :
    WellsLenInv (updateA wells name wd) := by
  intro w wd' hl
  rw [lookupA_updateA] at hl
  by_cases he : w = name
  · rw [if_pos he] at hl
    cases hl
    exact hwd
  · rw [if_neg he] at hl
    exact hw w wd' hl

theorem setCyclesIfEmpty_inv (wd : WellData) (cycles : List Cell)
    (hnc : cycles ≠ []) (h : WellLenInv wd) :
    WellLenInv (setCyclesIfEmpty wd cycles) ∧ (setCyclesIfEmpty wd cycles).cycles ≠ [] := by
  unfold setCyclesIfEmpty
  exact WellLenInv_setCycles wd cycles hnc h

theorem setSampleFirst_channels (b : Bool) (s : List String) (wd : WellData) :
    (setSampleFirst b s wd).channels = wd.channels := by
  unfold setSampleFirst
  split
  · split <;> rfl
  · rfl

theorem setSampleFirst_cycles (b : Bool) (s : List String) (wd : WellData) :
    (setSampleFirst b s wd).cycles = wd.cycles := by
  unfold setSampleFirst
  split
  · split <;> rfl
  · rfl

theorem setSampleFirst_inv (b : Bool) (s : List String) (wd : WellData)
    (h : WellLenInv wd) : WellLenInv (setSampleFirst b s wd) :=
  WellLenInv_congr wd _ (setSampleFirst_channels b s wd) (setSampleFirst_cycles b s wd) h

theorem setSampleFromInfo_channels (sOpt : Option String) (wd : WellData) :
    (setSampleFromInfo sOpt wd).channels = wd.channels := by
  unfold setSampleFromInfo
  split <;> rfl

theorem setSampleFromInfo_cycles (sOpt : Option String) (wd : WellData) :
    (setSampleFromInfo sOpt wd).cycles = wd.cycles := by
  unfold setSampleFromInfo
  split <;> rfl

theorem setSampleFromInfo_inv (sOpt : Option String) (wd : WellData)
    (h : WellLenInv wd) : WellLenInv (setSampleFromInfo sOpt wd) :=
  WellLenInv_congr wd _ (setSampleFromInfo_channels sOpt wd)
    (setSampleFromInfo_cycles sOpt wd) h

theorem setCtFirst_channels (b : Bool) (cts : List ℚ) (cn : String) (wd : WellData) :
    (setCtFirst b cts cn wd).channels = wd.channels := by
  unfold setCtFirst
  split
  · split <;> rfl
  · rfl

theorem setCtFirst_cycles (b : Bool) (cts : List ℚ) (cn : String) (wd : WellData) :
    (setCtFirst b cts cn wd).cycles = wd.cycles := by
  unfold setCtFirst
  split
  · split <;> rfl
  · rfl

theorem setCtFirst_inv (b : Bool) (cts : List ℚ) (cn : String) (wd : WellData)
    (h : WellLenInv wd) : WellLenInv (setCtFirst b cts cn wd) :=
  WellLenInv_congr wd _ (setCtFirst_channels b cts cn wd) (setCtFirst_cycles b cts cn wd) h

theorem setCtChecked_channels (ctOpt : Option ℚ) (cn : String) (wd : WellData) :
    (setCtChecked ctOpt cn wd).channels = wd.channels := by
  unfold setCtChecked
  split
  · split <;> rfl
  · rfl

theorem setCtChecked_cycles (ctOpt : Option ℚ) (cn : String) (wd : WellData) :
    (setCtChecked ctOpt cn wd).cycles = wd.cycles := by
  unfold setCtChecked
  split
  · split <;> rfl
  · rfl

theorem setCtChecked_inv (ctOpt : Option ℚ) (cn : String) (wd : WellData)
    (h : WellLenInv wd) : WellLenInv (setCtChecked ctOpt cn wd) :=
  WellLenInv_congr wd _ (setCtChecked_channels ctOpt cn wd) (setCtChecked_cycles ctOpt cn wd) h

theorem storeChannel_inv (wd : WellData) (cn : String) (vals : List ℚ)
    (hcy : wd.cycles ≠ []) (h : WellLenInv wd) : WellLenInv (storeChannel wd cn vals) := by
  unfold storeChannel
  exact WellLenInv_store wd cn vals hcy h

theorem storeRawChannel_inv (wd : WellData) (cn : String) (vals : List ℚ)
    (h : WellLenInv wd) : WellLenInv (storeRawChannel wd cn vals) :=
  WellLenInv_congr wd _ rfl rfl h

theorem vendorARawTail_inv (ctOpt : Option ℚ) (cn : String) (cycles : List Int)
    (wd : WellData) (h : WellLenInv wd) : WellLenInv (vendorARawTail ctOpt cn cycles wd) := by
  unfold vendorARawTail
  by_cases he : wd.cycles.isEmpty
  · have hcy : wd.cycles = [] := List.isEmpty_iff.mp he
    have hch : wd.channels = [] := by
      rcases h.2 with h2 | h2
      · exact h2
      · exact absurd hcy h2
    rw [if_pos he]
    split
    · constructor
      · intro ch l hl
        simp only [hch] at hl
        simp [lookupA] at hl
      · left
        simpa using hch
    · constructor
      · intro ch l hl
        simp only [hch] at hl
        simp [lookupA] at hl
      · left
        simpa using hch
  · rw [if_neg he]
    exact h

theorem vendorAAmpStep_inv (hasCt hasSample : Bool) (wells : List (String × WellData))
    (g : (String × String) × List ARow) (hg : g.2 ≠ []) (hw : WellsLenInv wells) :
    WellsLenInv (vendorAAmpStep hasCt hasSample wells g) := by
  unfold vendorAAmpStep
  dsimp only
  split
  · exact hw
  · have h0 := WellLenInv_getD wells (strTrim g.1.1) hw
    have hnc : (sortARows g.2).map (fun r => Cell.num r.cycle) ≠ [] := by
      intro hc
      exact sortBy_ne_nil _ g.2 hg (List.map_eq_nil.mp hc)
    have h1 := setCyclesIfEmpty_inv _ _ hnc h0
    have h2 := setSampleFirst_inv hasSample ((sortARows g.2).filterMap fun r => r.sample) _ h1.1
    have h2c : (setSampleFirst hasSample ((sortARows g.2).filterMap fun r => r.sample)
        (setCyclesIfEmpty ((lookupA wells (strTrim g.1.1)).getD { well_name := (strTrim g.1.1) })
          ((sortARows g.2).map fun r => Cell.num r.cycle))).cycles ≠ [] := by
      rw [setSampleFirst_cycles]
      exact h1.2
    have h3 := storeChannel_inv _ (strTrim g.1.2) ((sortARows g.2).map fun r => r.amp) h2c h2
    have h4 := setCtFirst_inv hasCt ((sortARows g.2).filterMap fun r => r.ct) (strTrim g.1.2) _ h3
    exact WellsLenInv_updateA wells (strTrim g.1.1) _ hw h4

theorem vendorARawStep_inv (well_data : List (String × WellInfoA))
    (wells : List (String × WellData)) (g : (String × String) × List RRow)
    (hw : WellsLenInv wells) : WellsLenInv (vendorARawStep well_data wells g) := by
  unfold vendorARawStep
  dsimp only
  split
  · exact hw
  · have h0 := WellLenInv_getD wells (strTrim g.1.1) hw
    have h1 := storeRawChannel_inv _ (strTrim g.1.2) ((sortRRows g.2).map fun r => r.rawValue) h0
    have h2 := vendorARawTail_inv ((lookupA well_data (strTrim g.1.1)).bind fun i => i.ct)
      (strTrim g.1.2) ((sortRRows g.2).map fun r => r.cycle) _ h1
    exact WellsLenInv_updateA wells (strTrim g.1.1) _ hw h2

theorem vendor7500AmpStep_inv (well_data : List (String × WellInfo7))
    (wells : List (String × WellData)) (g : (String × String) × List Amp7Row)
    (hg : g.2 ≠ []) (hw : WellsLenInv wells) :
    WellsLenInv (vendor7500AmpStep well_data wells g) := by
  unfold vendor7500AmpStep
  dsimp only
  split
  · exact hw
  · have h0 := WellLenInv_getD wells (strTrim g.1.1) hw
    have hnc : (sortAmp7Rows g.2).map (fun r => Cell.num r.cycle) ≠ [] := by
      intro hc
      exact sortBy_ne_nil _ g.2 hg (List.map_eq_nil.mp hc)
    have h1 := setCyclesIfEmpty_inv _ _ hnc h0
    have h2 := setSampleFromInfo_inv
      ((lookupA well_data (strTrim g.1.1)).bind fun i => i.sample_name) _ h1.1
    have h2c : (setSampleFromInfo ((lookupA well_data (strTrim g.1.1)).bind fun i => i.sample_name)
        (setCyclesIfEmpty ((lookupA wells (strTrim g.1.1)).getD { well_name := (strTrim g.1.1) })
          ((sortAmp7Rows g.2).map fun r => Cell.num r.cycle))).cycles ≠ [] := by
      rw [setSampleFromInfo_cycles]
      exact h1.2
    have h3 := storeChannel_inv _ (strTrim g.1.2) ((sortAmp7Rows g.2).map fun r => r.amp) h2c h2
    have h4 := setCtChecked_inv
      ((lookupA well_data (strTrim g.1.1)).bind fun i => lookupA i.cts (strTrim g.1.2))
      (strTrim g.1.2) _ h3
    exact WellsLenInv_updateA wells (strTrim g.1.1) _ hw h4

theorem vendor7500RawStep_inv (wells : List (String × WellData))
    (g : (String × String) × List RRow) (hg : g.2 ≠ []) (hw : WellsLenInv wells) :
    WellsLenInv (vendor7500RawStep wells g) := by
  unfold vendor7500RawStep
  dsimp only
  split
  · exact hw
  · have h0 := WellLenInv_getD wells (strTrim g.1.1) hw
    have hnc : (sortRRows g.2).map (fun r => Cell.num r.cycle) ≠ [] := by
      intro hc
      exact sortBy_ne_nil _ g.2 hg (List.map_eq_nil.mp hc)
    have h1 := setCyclesIfEmpty_inv _ _ hnc h0
    have h2 := storeRawChannel_inv _ (strTrim g.1.2) ((sortRRows g.2).map fun r => r.rawValue) h1.1
    exact WellsLenInv_updateA wells (strTrim g.1.1) _ hw h2

theorem WellsLenInv_nil : WellsLenInv [] := by
  intro w wd h
  simp [lookupA] at h

theorem vendorAConvert_inv (amp : List ARow) (raw : List RRow)
    (well_data : List (String × WellInfoA)) :
    WellsLenInv (vendorAConvert amp raw well_data).wells := by
  unfold vendorAConvert
  dsimp only
  apply foldl_preserves WellsLenInv
  · intro g hg t ht
    exact vendorARawStep_inv well_data t g ht
  · apply foldl_preserves WellsLenInv
    · intro g hg t ht
      exact vendorAAmpStep_inv _ _ t g (groupByWellChannel_mem _ amp g hg).1 ht
    · exact WellsLenInv_nil

theorem vendor7500Convert_inv (amp : List Amp7Row) (raw : List RRow)
    (well_data : List (String × WellInfo7)) :
    WellsLenInv (vendor7500Convert amp raw well_data).wells := by
  unfold vendor7500Convert
  dsimp only
  apply foldl_preserves WellsLenInv
  · intro g hg t ht
    exact vendor7500RawStep_inv t g (groupByWellChannel_mem _ raw g hg).1 ht
  · apply foldl_preserves WellsLenInv
    · intro g hg t ht
      exact vendor7500AmpStep_inv _ t g (groupByWellChannel_mem _ amp g hg).1 ht
    · exact WellsLenInv_nil

theorem buildRows_map_channel (cycles values : List Cell) (w ch : String) :
    (buildRows cycles values w ch).map (fun r => r.channel) =
      List.replicate (min cycles.length values.length) ch := by
  apply List.eq_replicate.mpr
  constructor
  · simp [buildRows]
  · intro b hb
    simp only [buildRows, List.map_map, List.mem_map, Function.comp] at hb
    obtain ⟨i, _, hib⟩ := hb
    exact hib.symm

theorem buildRows_map_value (cycles values : List Cell) (w ch : String) :
    (buildRows cycles values w ch).map (fun r => r.value) =
      values.take (min cycles.length values.length) := by
  unfold buildRows
  rw [List.map_map]
  have : ((fun r : QRow => r.value) ∘ fun i =>
      ({ cycle := cycles.getD i Cell.na, well := w, channel := ch,
         value := values.getD i Cell.na } : QRow)) = fun i => values.getD i Cell.na := rfl
  rw [this]
  exact map_getD_range_eq_take values _ Cell.na (Nat.min_le_right _ _)

theorem buildRawRows_map_channel (cycles values : List Cell) (w ch : String) :
    (buildRawRows cycles values w ch).map (fun r => r.channel) =
      List.replicate (min cycles.length values.length) ch := by
  apply List.eq_replicate.mpr
  constructor
  · simp [buildRawRows]
  · intro b hb
    simp only [buildRawRows, List.map_map, List.mem_map, Function.comp] at hb
    obtain ⟨i, _, hib⟩ := hb
    exact hib.symm

theorem buildRawRows_map_rawValue (cycles values : List Cell) (w ch : String) :
    (buildRawRows cycles values w ch).map (fun r => r.rawValue) =
      values.take (min cycles.length values.length) := by
  unfold buildRawRows
  rw [List.map_map]
  have : ((fun r : RQRow => r.rawValue) ∘ fun i =>
      ({ cycle := cycles.getD i Cell.na, well := w, channel := ch,
         rawValue := values.getD i Cell.na } : RQRow)) = fun i => values.getD i Cell.na := rfl
  rw [this]
  exact map_getD_range_eq_take values _ Cell.na (Nat.min_le_right _ _)

theorem getD_map_range {α : Type} (n i : ℕ) (f : ℕ → α) (d : α) (h : i < n) :
    ((List.range n).map f).getD i d = f i := by
  have hlen : i < ((List.range n).map f).length := by simpa using h
  rw [List.getD_eq_getElem _ _ hlen, List.getElem_map, List.getElem_range]

theorem buildRows_of_range_maps (n : ℕ) (g h : ℕ → Cell) (w ch : String) :
    buildRows ((List.range n).map g) ((List.range n).map h) w ch =
      (List.range n).map (fun i =>
        { cycle := g i, well := w, channel := ch, value := h i }) := by
  unfold buildRows
  simp only [List.length_map, List.length_range, Nat.min_self]
  apply List.map_congr_left
  intro i hi
  have hin : i < n := List.mem_range.mp hi
  rw [getD_map_range n i g Cell.na hin, getD_map_range n i h Cell.na hin]

/-! ## Claim theorems -/

/-- C3 counterexample: `detect_vendor` on an unreadable non-`.xls` file
(openpyxl cannot open it) propagates the load error instead of returning
the generic tag, so detection can raise. -/
theorem C3_counterexample :
    detectVendorFile { ext := ".xlsx", xlrdNames := none, openpyxlNames := none } =
      .error () := rfl

/-- C3 (amended): detection never raises for `.xls` files — both engine
failures are caught there, resolving to a tag (generic in the worst
case); for other extensions an unreadable workbook raises to the caller
(the counterexample). -/
theorem C3_amended_xls_never_raises (f : XFile) (h : strLower f.ext = ".xls") :
    detectVendorFile f ≠ .error () := by
  unfold detectVendorFile
  rw [if_pos h]
  cases f.xlrdNames with
  | some names => simp
  | none =>
    cases f.openpyxlNames with
    | some names => simp
    | none => simp

/-- Witness for the amended C3 at a concrete unreadable `.xls` file. -/
theorem C3_amended_witness :
    detectVendorFile { ext := ".xls", xlrdNames := none, openpyxlNames := none } ≠
      .error () :=
  C3_amended_xls_never_raises _ (by decide)

/-- C4: `detect_vendor`'s sheet-name logic returns the 7500 tag exactly
on the spec's 7500 signature, else the vendor-A tag exactly on a marker
sheet name, else the generic tag, with the 7500 signature taking
priority. -/
theorem C4_detect_characterisation (names : List String) :
    (detectFromSheets names = "vendor_7500" ↔ spec7500Signature names) ∧
    (¬ spec7500Signature names →
      (detectFromSheets names = "vendor_a" ↔ specVendorAMarker names)) ∧
    (¬ spec7500Signature names → ¬ specVendorAMarker names →
      detectFromSheets names = "default") := by
  have hdet : detectFromSheets names =
      if spec7500Signature names then "vendor_7500"
      else if names.any (fun name =>
          containsSub name "实验数据" ∨ containsSub name "扩增曲线") then "vendor_a"
      else "default" := by
    unfold detectFromSheets spec7500Signature
    rfl
  have hmark : (names.any fun name =>
      containsSub name "实验数据" ∨ containsSub name "扩增曲线") = true ↔
      specVendorAMarker names := by
    rw [List.any_eq_true]
    unfold specVendorAMarker
    constructor
    · rintro ⟨n, hn, hp⟩
      refine ⟨n, hn, ?_⟩
      simpa using hp
    · rintro ⟨n, hn, hp⟩
      refine ⟨n, hn, ?_⟩
      simpa using hp
  rw [hdet]
  by_cases h7 : spec7500Signature names
  · rw [if_pos h7]
    exact ⟨⟨fun _ => h7, fun _ => rfl⟩,
      fun hn => absurd h7 hn, fun hn _ => absurd h7 hn⟩
  · rw [if_neg h7]
    by_cases hm : specVendorAMarker names
    · rw [if_pos (hmark.mpr hm)]
      exact ⟨⟨fun h => absurd h (by decide), fun hs => absurd hs h7⟩,
        fun _ => ⟨fun _ => hm, fun _ => rfl⟩, fun _ hnm => absurd hm hnm⟩
    · rw [if_neg (fun h => hm (hmark.mp h))]
      exact ⟨⟨fun h => absurd h (by decide), fun hs => absurd hs h7⟩,
        fun _ => ⟨fun h => absurd h (by decide), fun hmm => absurd hmm hm⟩,
        fun _ _ => rfl⟩

/-- Witness for C4: the spec §8 example sheet set resolves to the 7500
tag, and an unmatched sheet set to the generic tag. -/
theorem C4_witness :
    detectFromSheets ["Sample Setup", "Multicomponent Data", "Results"] = "vendor_7500" ∧
    detectFromSheets ["zzz"] = "default" :=
  ⟨(C4_detect_characterisation _).1.mpr (Or.inl ⟨by decide, by decide⟩),
   (C4_detect_characterisation _).2.2 (by decide) (by decide)⟩

/-- C1 counterexample: a vendor-A sheet whose Ct cell holds `45` flows
through `extract_amplification_data_from_exp` and `VendorAConverter`
into the well's Ct map unchecked, although `45 > 42`. -/
theorem C1_counterexample :
    ((vendorAConvert (extractVendorAAmp vendorACtGrid) [] []).get_well "A1").map
      (fun wd => lookupA wd.ct_values "FAM") = some (some 45) ∧
    ¬ ((45 : ℚ) ≤ 42) := by
  constructor
  · rfl
  · norm_num

/-- C2 counterexample: `DefaultConverter` on a table with a well column
and two wells stores each well's two values against the four-entry
full-table cycle list, with no truncation or padding. -/
theorem C2_counterexample :
    ((defaultConvert defaultMultiWellTable).get_well "A1").map
      (fun wd => ((lookupA wd.channels "FAM").map List.length, wd.cycles.length)) =
      some (some 2, 4) ∧ (2 : ℕ) ≠ 4 := by
  constructor
  · rfl
  · decide

/-- C6 counterexample: a generic table with a column literally named
`RawValue` puts the structural label `RawValue` into `all_channels()` —
the processed-map filter list omits it. -/
theorem C6_counterexample :
    (defaultConvert rawValueColTable).get_all_channels = ["RawValue"] ∧
    "RawValue" ∈ structuralNames := by
  constructor
  · rfl
  · decide

/-- C7 counterexample: on the Results sheet a `HEX`-labeled Ct is folded
to `VIC` at storage time, so no `HEX` key exists in the extracted Ct
table. -/
theorem C7_counterexample :
    extractCtFromResults hexResultsGrid = [("A1", [("VIC", 20)])] ∧
    (lookupA (extractCtFromResults hexResultsGrid) "A1").map
      (fun m => lookupA m "HEX") = some none := by
  constructor
  · rfl
  · rfl

/-- C8 counterexample: with the cycle-5 raw cell missing, the stored raw
sequence keeps its 42-cell length but holds the cycle-6 value `105` at
the cycle-5 position and the filler `0.0` at the tail instead. -/
theorem C8_counterexample :
    ((vendorAConvert (extractVendorAAmp vendorARawGapGrid)
        (extractVendorARaw vendorARawGapGrid) []).get_well "A1").map
      (fun wd => lookupA wd.raw_channels "FAM") = some (some rawGapStored) ∧
    rawGapStored.length = 42 ∧
    rawGapStored.getD 4 Cell.na = Cell.num 105 ∧
    Cell.num 105 ≠ Cell.num 0 ∧
    rawGapStored.getD 41 Cell.na = Cell.num 0 := by
  refine ⟨?_, rfl, rfl, ?_, rfl⟩
  · rfl
  · decide

/-- C10 counterexample: a present-but-empty raw entry blocks the
processed-map fallback — the raw query returns no rows although the
processed map holds data for the channel. -/
theorem C10_counterexample :
    emptyRawModel.get_raw_data (some ["A1"]) (some ["FAM"]) = [] ∧
    lookupA emptyRawWell.channels "FAM" = some [Cell.num 5] ∧
    [Cell.num 5] ≠ ([] : List Cell) := by
  refine ⟨rfl, rfl, ?_⟩
  decide

/-- C5: an amplification query for `HEX` (resp. `VIC`) on a well with no
data under that key but data under the other one returns the other
channel's values, and every returned row is labeled with the requested
channel name. -/
theorem C5_hex_vic_query_substitution (m : PCRDataModel) (w : String) (wd : WellData)
    (a b : String) (vs : List Cell)
    (hab : (a = "HEX" ∧ b = "VIC") ∨ (a = "VIC" ∧ b = "HEX"))
    (hw : m.get_well w = some wd)
    (hfa : wd.has_channel a = false)
    (hvs : lookupA wd.channels b = some vs)
    (hne : vs ≠ []) :
    (m.to_dataframe (some [w]) (some [a])).map (fun r => r.channel) =
      List.replicate
        (min (if wd.cycles.isEmpty then defaultCycles 40 else wd.cycles).length vs.length) a ∧
    (m.to_dataframe (some [w]) (some [a])).map (fun r => r.value) =
      vs.take
        (min (if wd.cycles.isEmpty then defaultCycles 40 else wd.cycles).length vs.length) := by
  have hhb : wd.has_channel b = true := by
    unfold WellData.has_channel
    rw [hvs]
    cases vs with
    | nil => exact absurd rfl hne
    | cons x t => rfl
  have hvempty : vs.isEmpty = false := by
    cases vs with
    | nil => exact absurd rfl hne
    | cons x t => rfl
  rcases hab with ⟨ha, hb⟩ | ⟨ha, hb⟩ <;> subst ha <;> subst hb
  · have key : m.to_dataframe (some [w]) (some ["HEX"]) =
        buildRows (if wd.cycles.isEmpty then defaultCycles 40 else wd.cycles) vs w "HEX" := by
      unfold PCRDataModel.to_dataframe WellData.get_channel_data
      simp only [pyListArg, List.foldl_cons, List.foldl_nil, hw]
      simp only [hfa, hhb, hvs, hvempty]
      simp
      rw [if_neg (by decide : ¬ ("HEX" ∈ structuralNames)), hvs]
      simp [hne]
    rw [key]
    exact ⟨buildRows_map_channel _ _ _ _, buildRows_map_value _ _ _ _⟩
  · have key : m.to_dataframe (some [w]) (some ["VIC"]) =
        buildRows (if wd.cycles.isEmpty then defaultCycles 40 else wd.cycles) vs w "VIC" := by
      unfold PCRDataModel.to_dataframe WellData.get_channel_data
      simp only [pyListArg, List.foldl_cons, List.foldl_nil, hw]
      simp only [hfa, hhb, hvs, hvempty]
      simp
      rw [if_neg (by decide : ¬ ("VIC" ∈ structuralNames)), hvs]
      simp [hne]
    rw [key]
    exact ⟨buildRows_map_channel _ _ _ _, buildRows_map_value _ _ _ _⟩

/-- Witness for C5 at a well holding only `VIC` data, queried as `HEX`. -/
theorem C5_witness :
    (hexVicModel.to_dataframe (some ["B1"]) (some ["HEX"])).map (fun r => r.channel) =
      ["HEX", "HEX"] ∧
    (hexVicModel.to_dataframe (some ["B1"]) (some ["HEX"])).map (fun r => r.value) =
      [Cell.num 7, Cell.num 8] := by
  have h := C5_hex_vic_query_substitution hexVicModel "B1" hexVicWell "HEX" "VIC"
    [Cell.num 7, Cell.num 8] (Or.inl ⟨rfl, rfl⟩) rfl rfl rfl (by decide)
  simpa using h

/-- C10 (amended): a raw query falls back from the raw map to the
processed map exactly when the channel key is absent from the raw map
and present in the processed map; the processed values are then returned
labeled as raw values.  A present-but-empty raw entry blocks the
fallback (the counterexample). -/
theorem C10_amended_raw_fallback (m : PCRDataModel) (w : String) (wd : WellData)
    (ch : String) (vs : List Cell)
    (hw : m.get_well w = some wd)
    (hraw : lookupA wd.raw_channels ch = none)
    (hch : lookupA wd.channels ch = some vs)
    (hne : vs ≠ []) :
    (m.get_raw_data (some [w]) (some [ch])).map (fun r => r.rawValue) =
      vs.take
        (min (if wd.cycles.isEmpty then defaultCycles 42 else wd.cycles).length vs.length) ∧
    (m.get_raw_data (some [w]) (some [ch])).map (fun r => r.channel) =
      List.replicate
        (min (if wd.cycles.isEmpty then defaultCycles 42 else wd.cycles).length vs.length)
        ch := by
  have hvempty : vs.isEmpty = false := by
    cases vs with
    | nil => exact absurd rfl hne
    | cons x t => rfl
  have key : m.get_raw_data (some [w]) (some [ch]) =
      buildRawRows (if wd.cycles.isEmpty then defaultCycles 42 else wd.cycles) vs w ch := by
    unfold PCRDataModel.get_raw_data
    simp only [pyListArg, List.foldl_cons, List.foldl_nil, hw]
    simp only [hraw, hch, hvempty]
    simp
    rw [hraw, hch]
    simp [hne]
  rw [key]
  exact ⟨buildRawRows_map_rawValue _ _ _ _, buildRawRows_map_channel _ _ _ _⟩

/-- Witness for the amended C10 at a well with processed `FAM` data and
no raw map. -/
theorem C10_amended_witness :
    (rawFallbackModel.get_raw_data (some ["A1"]) (some ["FAM"])).map (fun r => r.rawValue) =
      [Cell.num 5] ∧
    (rawFallbackModel.get_raw_data (some ["A1"]) (some ["FAM"])).map (fun r => r.channel) =
      ["FAM"] := by
  have h := C10_amended_raw_fallback rawFallbackModel "A1" rawFallbackWell "FAM"
    [Cell.num 5] rfl rfl rfl (by decide)
  simpa using h

/-- C2 (amended): for the vendor-A and vendor-7500 converters, every
processed-signal sequence stored in a well has the length of that well's
cycle sequence (repairs truncate or zero-pad at the tail); the default
converter performs no such repair (the counterexample). -/
theorem C2_amended_length_invariant :
    (∀ (amp : List ARow) (raw : List RRow) (well_data : List (String × WellInfoA))
       (w : String) (wd : WellData) (ch : String) (l : List Cell),
       (vendorAConvert amp raw well_data).get_well w = some wd →
       lookupA wd.channels ch = some l → l.length = wd.cycles.length) ∧
    (∀ (amp : List Amp7Row) (raw : List RRow) (well_data : List (String × WellInfo7))
       (w : String) (wd : WellData) (ch : String) (l : List Cell),
       (vendor7500Convert amp raw well_data).get_well w = some wd →
       lookupA wd.channels ch = some l → l.length = wd.cycles.length) := by
  constructor
  · intro amp raw well_data w wd ch l hwell hch
    exact ((vendorAConvert_inv amp raw well_data) w wd hwell).1 ch l hch
  · intro amp raw well_data w wd ch l hwell hch
    exact ((vendor7500Convert_inv amp raw well_data) w wd hwell).1 ch l hch

/-- Witness for the amended C2 at a one-row table. -/
theorem C2_amended_witness :
    (vendorAConvert [ampWitnessRow] [] []).get_well "A1" = some ampWitnessWell ∧
    lookupA ampWitnessWell.channels "FAM" = some [Cell.num 3] ∧
    ([Cell.num 3] : List Cell).length = ampWitnessWell.cycles.length := by
  refine ⟨by decide, by decide, ?_⟩
  exact C2_amended_length_invariant.1 [ampWitnessRow] [] [] "A1" ampWitnessWell "FAM"
    [Cell.num 3] (by decide) (by decide)

/-! ## The Ct range invariant -/

theorem WellCtInv_default (name : String) : WellCtInv { well_name := name } := by
  intro ch q h
  simp [lookupA] at h

theorem WellCtInv_congr (wd wd' : WellData) (hc : wd'.ct_values = wd.ct_values)
    (h : WellCtInv wd) : WellCtInv wd' := by
  intro ch q hq
  rw [hc] at hq
  exact h ch q hq

theorem WellCtInv_getD (wells : List (String × WellData)) (name : String)
    (hw : WellsCtInv wells) :
    WellCtInv ((lookupA wells name).getD { well_name := name }) := by
  cases hlk : lookupA wells name with
  | none => simpa [hlk] using WellCtInv_default name
  | some wd => simpa [hlk] using hw name wd hlk

theorem setCyclesIfEmpty_cts (wd : WellData) (c : List Cell) :
    (setCyclesIfEmpty wd c).ct_values = wd.ct_values := by
  unfold setCyclesIfEmpty
  split <;> rfl

theorem setSampleFromInfo_cts (sOpt : Option String) (wd : WellData) :
    (setSampleFromInfo sOpt wd).ct_values = wd.ct_values := by
  unfold setSampleFromInfo
  split <;> rfl

theorem storeChannel_cts (wd : WellData) (cn : String) (vals : List ℚ) :
    (storeChannel wd cn vals).ct_values = wd.ct_values := rfl

theorem storeRawChannel_cts (wd : WellData) (cn : String) (vals : List ℚ) :
    (storeRawChannel wd cn vals).ct_values = wd.ct_values := rfl

theorem setCtChecked_ct_inv (ctOpt : Option ℚ) (cn : String) (wd : WellData)
    (h : WellCtInv wd) : WellCtInv (setCtChecked ctOpt cn wd) := by
  unfold setCtChecked
  split
  · next ct =>
    split
    · next hrange =>
      intro ch q hq
      simp only at hq
      rw [lookupA_updateA] at hq
      by_cases he : ch = cn
      · rw [if_pos he] at hq
        cases hq
        exact hrange
      · rw [if_neg he] at hq
        exact h ch q hq
    · exact h
  · exact h

theorem WellsCtInv_updateA (wells : List (String × WellData)) (name : String)
    (wd : WellData) (hw : WellsCtInv wells) (hwd : WellCtInv wd) :
    WellsCtInv (updateA wells name wd) := by
  intro w wd' hl
  rw [lookupA_updateA] at hl
  by_cases he : w = name
  · rw [if_pos he] at hl
    cases hl
    exact hwd
  · rw [if_neg he] at hl
    exact hw w wd' hl

theorem WellsCtInv_nil : WellsCtInv [] := by
  intro w wd h
  simp [lookupA] at h

theorem vendor7500AmpStep_ct_inv (well_data : List (String × WellInfo7))
    (wells : List (String × WellData)) (g : (String × String) × List Amp7Row)
    (hw : WellsCtInv wells) : WellsCtInv (vendor7500AmpStep well_data wells g) := by
  unfold vendor7500AmpStep
  dsimp only
  split
  · exact hw
  · apply WellsCtInv_updateA wells (strTrim g.1.1) _ hw
    apply setCtChecked_ct_inv
    apply WellCtInv_congr _ _ (storeChannel_cts _ _ _)
    apply WellCtInv_congr _ _ (setSampleFromInfo_cts _ _)
    apply WellCtInv_congr _ _ (setCyclesIfEmpty_cts _ _)
    exact WellCtInv_getD wells (strTrim g.1.1) hw

theorem vendor7500RawStep_ct_inv (wells : List (String × WellData))
    (g : (String × String) × List RRow) (hw : WellsCtInv wells) :
    WellsCtInv (vendor7500RawStep wells g) := by
  unfold vendor7500RawStep
  dsimp only
  split
  · exact hw
  · apply WellsCtInv_updateA wells (strTrim g.1.1) _ hw
    apply WellCtInv_congr _ _ (storeRawChannel_cts _ _ _)
    apply WellCtInv_congr _ _ (setCyclesIfEmpty_cts _ _)
    exact WellCtInv_getD wells (strTrim g.1.1) hw

theorem vendor7500Convert_ct_inv (amp : List Amp7Row) (raw : List RRow)
    (well_data : List (String × WellInfo7)) :
    WellsCtInv (vendor7500Convert amp raw well_data).wells := by
  unfold vendor7500Convert
  dsimp only
  apply foldl_preserves WellsCtInv
  · intro g hg t ht
    exact vendor7500RawStep_ct_inv t g ht
  · apply foldl_preserves WellsCtInv
    · intro g hg t ht
      exact vendor7500AmpStep_ct_inv _ t g ht
    · exact WellsCtInv_nil

theorem head?_filterMap_some {α β : Type} (f : α → Option β) (l : List α) (c : β)
    (h : (l.filterMap f).head? = some c) : ∃ x ∈ l, f x = some c := by
  induction l with
  | nil => simp [List.filterMap] at h
  | cons a t ih =>
    rw [List.filterMap_cons] at h
    cases hfa : f a with
    | some b =>
      rw [hfa] at h
      simp only [List.head?_cons, Option.some.injEq] at h
      exact ⟨a, List.mem_cons_self a t, by rw [hfa, h]⟩
    | none =>
      rw [hfa] at h
      obtain ⟨x, hx, hfx⟩ := ih h
      exact ⟨x, List.mem_cons_of_mem a hx, hfx⟩

theorem extractCtRow_inv (wc tc ctc width : Nat)
    (acc : List (String × List (String × ℚ))) (row : List Cell)
    (hacc : CtTableInv acc) : CtTableInv (extractCtRow wc tc ctc width acc row) := by
  unfold extractCtRow
  dsimp only
  split
  · exact hacc
  · split
    · exact hacc
    · split
      · exact hacc
      · split
        · split
          · exact hacc
          · split
            · next ct_value hparse =>
              split
              · next hrange =>
                intro w m hm
                rw [lookupA_updateA] at hm
                by_cases he : w = strUpper (strTrim (rowCell row wc).toStr)
                · rw [if_pos he] at hm
                  cases hm
                  intro ch q hq
                  rw [lookupA_updateA] at hq
                  by_cases he2 : ch = map7500CtChannel (strTrim (rowCell row tc).toStr)
                  · rw [if_pos he2] at hq
                    cases hq
                    exact hrange
                  · rw [if_neg he2] at hq
                    cases hl0 : lookupA acc (strUpper (strTrim (rowCell row wc).toStr)) with
                    | some m1 =>
                      rw [hl0] at hq
                      simp only [Option.getD_some] at hq
                      exact hacc _ m1 hl0 ch q hq
                    | none =>
                      rw [hl0] at hq
                      simp [lookupA] at hq
                · rw [if_neg he] at hm
                  exact hacc w m hm
              · exact hacc
            · exact hacc
        · exact hacc

theorem extractCtFromResults_inv (g : Grid) : CtTableInv (extractCtFromResults g) := by
  unfold extractCtFromResults
  split
  · intro w m hm
    simp [lookupA] at hm
  · dsimp only
    split
    · split
      · apply foldl_preserves CtTableInv
        · intro row hrow t ht
          exact extractCtRow_inv _ _ _ _ t row ht
        · intro w m hm
          simp [lookupA] at hm
      · intro w m hm
        simp [lookupA] at hm
    · intro w m hm
      simp [lookupA] at hm

theorem ctPick_range (row : List Cell) (cols : List Nat) (q : ℚ)
    (h : (cols.filterMap (fun next_col =>
        let nval := rowCell row next_col
        if nval.isna then none
        else match nval.toFloat with
          | some c => if 0 < c ∧ c ≤ 42 then some c else none
          | none => none)).head? = some q) : 0 < q ∧ q ≤ 42 := by
  obtain ⟨x, hx, hfx⟩ := head?_filterMap_some _ cols q h
  dsimp only at hfx
  split at hfx
  · simp at hfx
  · split at hfx
    · split at hfx
      · next hr =>
        cases hfx
        exact hr
      · simp at hfx
    · simp at hfx

theorem extractVendorAWellData_inv (g : Grid) :
    ∀ w i, lookupA (extractVendorAWellData g) w = some i →
      ∀ q, i.ct = some q → 0 < q ∧ q ≤ 42 := by
  unfold extractVendorAWellData
  dsimp only
  apply foldl_preserves
    (fun t => ∀ (w : String) (i : WellInfoA), lookupA t w = some i →
      ∀ (q : ℚ), i.ct = some q → 0 < q ∧ q ≤ 42)
  · intro rowx hrow t ht
    apply foldl_preserves
      (fun t => ∀ (w : String) (i : WellInfoA), lookupA t w = some i →
        ∀ (q : ℚ), i.ct = some q → 0 < q ∧ q ≤ 42)
    · intro col hcol t2 ht2
      dsimp only
      split
      · exact ht2
      · split
        · exact ht2
        · intro w i hi
          rw [lookupA_updateA] at hi
          by_cases he : w = strUpper (strTrim (rowCell rowx col).toStr)
          · rw [if_pos he] at hi
            cases hi
            intro q hq
            simp only at hq
            exact ctPick_range rowx _ q hq
          · rw [if_neg he] at hi
            exact ht2 w i hi
    · exact ht
  · intro w i hi
    simp [lookupA] at hi

/-- C1 (amended): the Ct range invariant `0 < ct ≤ 42` holds for every
well built by the 7500 converter (it re-checks the range on attachment),
for everything the Results-sheet Ct extractor stores (it filters
sentinels and range-checks), and for every Ct recorded by vendor-A
`extract_well_data`; the vendor-A converter's amplification path by
contrast stores unchecked Ct values (the counterexample). -/
theorem C1_amended_ct_range :
    (∀ (amp : List Amp7Row) (raw : List RRow) (well_data : List (String × WellInfo7))
       (w : String) (wd : WellData) (ch : String) (q : ℚ),
       (vendor7500Convert amp raw well_data).get_well w = some wd →
       lookupA wd.ct_values ch = some q → 0 < q ∧ q ≤ 42) ∧
    (∀ (g : Grid) (w : String) (m : List (String × ℚ)) (ch : String) (q : ℚ),
       lookupA (extractCtFromResults g) w = some m →
       lookupA m ch = some q → 0 < q ∧ q ≤ 42) ∧
    (∀ (g : Grid) (w : String) (i : WellInfoA) (q : ℚ),
       lookupA (extractVendorAWellData g) w = some i →
       i.ct = some q → 0 < q ∧ q ≤ 42) := by
  refine ⟨?_, ?_, ?_⟩
  · intro amp raw well_data w wd ch q hwell hct
    exact (vendor7500Convert_ct_inv amp raw well_data) w wd hwell ch q hct
  · intro g w m ch q hm hq
    exact extractCtFromResults_inv g w m hm ch q hq
  · intro g w i q hi hq
    exact extractVendorAWellData_inv g w i hi q hq

/-- Witness for the amended C1: a 7500 conversion with an in-range
auxiliary Ct stores it, and the invariant applies to it. -/
theorem C1_amended_witness :
    (vendor7500Convert [amp7WitnessRow] [] [("A1", info7Witness)]).get_well "A1" =
      some ct7WitnessWell ∧
    lookupA ct7WitnessWell.ct_values "FAM" = some 20 ∧
    (0 < (20 : ℚ) ∧ (20 : ℚ) ≤ 42) := by
  refine ⟨by decide, by decide, ?_⟩
  exact C1_amended_ct_range.1 [amp7WitnessRow] [] [("A1", info7Witness)] "A1"
    ct7WitnessWell "FAM" 20 (by decide) (by decide)

/-! ## The channel-key invariant -/

theorem mem_updateA {α : Type} (l : List (String × α)) (k : String) (v : α)
    (p : String × α) (hp : p ∈ updateA l k v) : p = (k, v) ∨ p ∈ l := by
  induction l with
  | nil => simpa [updateA] using hp
  | cons hd tl ih =>
    obtain ⟨hk, hv⟩ := hd
    by_cases he : hk = k
    · simp only [updateA, if_pos he] at hp
      rcases List.mem_cons.mp hp with h1 | h1
      · left; rw [h1, he]
      · right; exact List.mem_cons_of_mem _ h1
    · simp only [updateA, if_neg he] at hp
      rcases List.mem_cons.mp hp with h1 | h1
      · right; rw [h1]; exact List.mem_cons_self _ tl
      · rcases ih h1 with h2 | h2
        · left; exact h2
        · right; exact List.mem_cons_of_mem _ h2

theorem keysA_updateA {α : Type} (l : List (String × α)) (k : String) (v : α)
    (x : String) (hx : x ∈ keysA (updateA l k v)) : x = k ∨ x ∈ keysA l := by
  obtain ⟨p, hp, hpx⟩ := List.mem_map.mp hx
  rcases mem_updateA l k v p hp with h1 | h1
  · left; rw [← hpx, h1]
  · right; exact List.mem_map.mpr ⟨p, h1, hpx⟩

theorem lookupA_mem {α : Type} (l : List (String × α)) (k : String) (v : α)
    (h : lookupA l k = some v) : (k, v) ∈ l := by
  induction l with
  | nil => simp [lookupA] at h
  | cons hd tl ih =>
    obtain ⟨hk, hv⟩ := hd
    by_cases he : hk = k
    · subst he
      rw [lookupA, if_pos rfl] at h
      cases h
      exact List.mem_cons_self _ tl
    · rw [lookupA, if_neg he] at h
      exact List.mem_cons_of_mem _ (ih h)

theorem WellChanInv_default (name : String) : WellChanInv { well_name := name } := by
  constructor <;> intro ch hch <;> simp [keysA] at hch

theorem WellChanInv_congr (wd wd' : WellData) (hc : wd'.channels = wd.channels)
    (hr : wd'.raw_channels = wd.raw_channels) (h : WellChanInv wd) : WellChanInv wd' := by
  constructor
  · intro ch hch
    rw [hc] at hch
    exact h.1 ch hch
  · intro ch hch
    rw [hr] at hch
    exact h.2 ch hch

theorem setCyclesIfEmpty_channels (wd : WellData) (c : List Cell) :
    (setCyclesIfEmpty wd c).channels = wd.channels := by
  unfold setCyclesIfEmpty
  split <;> rfl

theorem setCyclesIfEmpty_raw (wd : WellData) (c : List Cell) :
    (setCyclesIfEmpty wd c).raw_channels = wd.raw_channels := by
  unfold setCyclesIfEmpty
  split <;> rfl

theorem setSampleFirst_raw (b : Bool) (s : List String) (wd : WellData) :
    (setSampleFirst b s wd).raw_channels = wd.raw_channels := by
  unfold setSampleFirst
  split
  · split <;> rfl
  · rfl

theorem setSampleFromInfo_raw (sOpt : Option String) (wd : WellData) :
    (setSampleFromInfo sOpt wd).raw_channels = wd.raw_channels := by
  unfold setSampleFromInfo
  split <;> rfl

theorem setCtFirst_raw (b : Bool) (cts : List ℚ) (cn : String) (wd : WellData) :
    (setCtFirst b cts cn wd).raw_channels = wd.raw_channels := by
  unfold setCtFirst
  split
  · split <;> rfl
  · rfl

theorem setCtChecked_raw (ctOpt : Option ℚ) (cn : String) (wd : WellData) :
    (setCtChecked ctOpt cn wd).raw_channels = wd.raw_channels := by
  unfold setCtChecked
  split
  · split <;> rfl
  · rfl

theorem vendorARawTail_channels (ctOpt : Option ℚ) (cn : String) (cycles : List Int)
    (wd : WellData) : (vendorARawTail ctOpt cn cycles wd).channels = wd.channels := by
  unfold vendorARawTail
  split
  · split <;> rfl
  · rfl

theorem vendorARawTail_raw (ctOpt : Option ℚ) (cn : String) (cycles : List Int)
    (wd : WellData) : (vendorARawTail ctOpt cn cycles wd).raw_channels = wd.raw_channels := by
  unfold vendorARawTail
  split
  · split <;> rfl
  · rfl

theorem storeChannel_chan_inv (wd : WellData) (cn : String) (vals : List ℚ)
    (hcn : cn ∉ structuralNames) (h : WellChanInv wd) :
    WellChanInv (storeChannel wd cn vals) := by
  constructor
  · intro ch hch
    rcases keysA_updateA wd.channels cn _ ch hch with h1 | h1
    · rw [h1]; exact hcn
    · exact h.1 ch h1
  · intro ch hch
    exact h.2 ch hch

theorem storeRawChannel_chan_inv (wd : WellData) (cn : String) (vals : List ℚ)
    (hcn : cn ∉ structuralNames) (h : WellChanInv wd) :
    WellChanInv (storeRawChannel wd cn vals) := by
  constructor
  · intro ch hch
    exact h.1 ch hch
  · intro ch hch
    rcases keysA_updateA wd.raw_channels cn _ ch hch with h1 | h1
    · rw [h1]; exact hcn
    · exact h.2 ch h1

theorem WellChanInv_getD (wells : List (String × WellData)) (name : String)
    (hw : WellsChanInv wells) :
    WellChanInv ((lookupA wells name).getD { well_name := name }) := by
  cases hlk : lookupA wells name with
  | none => simpa [hlk] using WellChanInv_default name
  | some wd =>
    simp only [hlk, Option.getD_some]
    exact hw (name, wd) (lookupA_mem wells name wd hlk)

theorem WellsChanInv_updateA (wells : List (String × WellData)) (name : String)
    (wd : WellData) (hw : WellsChanInv wells) (hwd : WellChanInv wd) :
    WellsChanInv (updateA wells name wd) := by
  intro p hp
  rcases mem_updateA wells name wd p hp with h1 | h1
  · rw [h1]
    exact hwd
  · exact hw p h1

theorem WellsChanInv_nil : WellsChanInv [] := by
  intro p hp
  simp at hp

theorem vendorAAmpStep_chan_inv (hasCt hasSample : Bool)
    (wells : List (String × WellData)) (g : (String × String) × List ARow)
    (hw : WellsChanInv wells) : WellsChanInv (vendorAAmpStep hasCt hasSample wells g) := by
  unfold vendorAAmpStep
  dsimp only
  split
  · exact hw
  · next hstruct =>
    apply WellsChanInv_updateA wells (strTrim g.1.1) _ hw
    apply WellChanInv_congr _ _ (setCtFirst_channels _ _ _ _) (setCtFirst_raw _ _ _ _)
    apply storeChannel_chan_inv _ _ _ hstruct
    apply WellChanInv_congr _ _ (setSampleFirst_channels _ _ _) (setSampleFirst_raw _ _ _)
    apply WellChanInv_congr _ _ (setCyclesIfEmpty_channels _ _) (setCyclesIfEmpty_raw _ _)
    exact WellChanInv_getD wells (strTrim g.1.1) hw

theorem vendorARawStep_chan_inv (well_data : List (String × WellInfoA))
    (wells : List (String × WellData)) (g : (String × String) × List RRow)
    (hw : WellsChanInv wells) : WellsChanInv (vendorARawStep well_data wells g) := by
  unfold vendorARawStep
  dsimp only
  split
  · exact hw
  · next hstruct =>
    apply WellsChanInv_updateA wells (strTrim g.1.1) _ hw
    apply WellChanInv_congr _ _ (vendorARawTail_channels _ _ _ _) (vendorARawTail_raw _ _ _ _)
    apply storeRawChannel_chan_inv _ _ _ hstruct
    exact WellChanInv_getD wells (strTrim g.1.1) hw

theorem vendor7500AmpStep_chan_inv (well_data : List (String × WellInfo7))
    (wells : List (String × WellData)) (g : (String × String) × List Amp7Row)
    (hw : WellsChanInv wells) : WellsChanInv (vendor7500AmpStep well_data wells g) := by
  unfold vendor7500AmpStep
  dsimp only
  split
  · exact hw
  · next hstruct =>
    apply WellsChanInv_updateA wells (strTrim g.1.1) _ hw
    apply WellChanInv_congr _ _ (setCtChecked_channels _ _ _) (setCtChecked_raw _ _ _)
    apply storeChannel_chan_inv _ _ _ hstruct
    apply WellChanInv_congr _ _ (setSampleFromInfo_channels _ _) (setSampleFromInfo_raw _ _)
    apply WellChanInv_congr _ _ (setCyclesIfEmpty_channels _ _) (setCyclesIfEmpty_raw _ _)
    exact WellChanInv_getD wells (strTrim g.1.1) hw

theorem vendor7500RawStep_chan_inv (wells : List (String × WellData))
    (g : (String × String) × List RRow) (hw : WellsChanInv wells) :
    WellsChanInv (vendor7500RawStep wells g) := by
  unfold vendor7500RawStep
  dsimp only
  split
  · exact hw
  · next hstruct =>
    apply WellsChanInv_updateA wells (strTrim g.1.1) _ hw
    apply storeRawChannel_chan_inv _ _ _ hstruct
    apply WellChanInv_congr _ _ (setCyclesIfEmpty_channels _ _) (setCyclesIfEmpty_raw _ _)
    exact WellChanInv_getD wells (strTrim g.1.1) hw

theorem vendorAConvert_chan_inv (amp : List ARow) (raw : List RRow)
    (well_data : List (String × WellInfoA)) :
    WellsChanInv (vendorAConvert amp raw well_data).wells := by
  unfold vendorAConvert
  dsimp only
  apply foldl_preserves WellsChanInv
  · intro g hg t ht
    exact vendorARawStep_chan_inv well_data t g ht
  · apply foldl_preserves WellsChanInv
    · intro g hg t ht
      exact vendorAAmpStep_chan_inv _ _ t g ht
    · exact WellsChanInv_nil

theorem vendor7500Convert_chan_inv (amp : List Amp7Row) (raw : List RRow)
    (well_data : List (String × WellInfo7)) :
    WellsChanInv (vendor7500Convert amp raw well_data).wells := by
  unfold vendor7500Convert
  dsimp only
  apply foldl_preserves WellsChanInv
  · intro g hg t ht
    exact vendor7500RawStep_chan_inv t g ht
  · apply foldl_preserves WellsChanInv
    · intro g hg t ht
      exact vendor7500AmpStep_chan_inv _ t g ht
    · exact WellsChanInv_nil

theorem mem_foldl_append2 {α β : Type} (f1 f2 : β → List α) (l : List β) :
    ∀ (init : List α) (x : α),
      x ∈ l.foldl (fun acc b => acc ++ f1 b ++ f2 b) init →
      x ∈ init ∨ ∃ b ∈ l, x ∈ f1 b ∨ x ∈ f2 b := by
  induction l with
  | nil => intro init x hx; left; simpa using hx
  | cons b t ih =>
    intro init x hx
    simp only [List.foldl_cons] at hx
    rcases ih _ x hx with h1 | ⟨c, hc, h2⟩
    · rcases List.mem_append.mp h1 with h2 | h2
      · rcases List.mem_append.mp h2 with h3 | h3
        · left; exact h3
        · right; exact ⟨b, List.mem_cons_self b t, Or.inl h3⟩
      · right; exact ⟨b, List.mem_cons_self b t, Or.inr h2⟩
    · right; exact ⟨c, List.mem_cons_of_mem b hc, h2⟩

theorem mem_get_all_channels (m : PCRDataModel) (x : String)
    (hx : x ∈ m.get_all_channels) :
    ∃ p ∈ m.wells,
      (x ∈ keysA p.2.channels ∧ x ∉ ampFilterNames) ∨
      (x ∈ keysA p.2.raw_channels ∧ x ∉ rawFilterNames) := by
  unfold PCRDataModel.get_all_channels at hx
  dsimp only at hx
  rw [show sortStrings = sortBy strLeB from rfl] at hx
  have hx2 := (mem_sortBy strLeB x _).mp hx
  have hx3 := (mem_dedupFirst x _).mp hx2
  rcases mem_foldl_append2 _ _ m.wells [] x hx3 with h1 | ⟨p, hp, h2⟩
  · simp at h1
  · refine ⟨p, hp, ?_⟩
    rcases h2 with h3 | h3
    · left
      have := List.mem_filter.mp h3
      exact ⟨this.1, by simpa using this.2⟩
    · right
      have := List.mem_filter.mp h3
      exact ⟨this.1, by simpa using this.2⟩

theorem defaultConvert_raw_nil (df : DFrame) :
    ∀ p ∈ (defaultConvert df).wells, p.2.raw_channels = [] := by
  have hstep : ∀ (w : WellData) (chs : List String)
      (f : WellData → String → WellData)
      (hf : ∀ w ch, (f w ch).raw_channels = w.raw_channels),
      ((chs.foldl f w).raw_channels = w.raw_channels) := by
    intro w chs f hf
    induction chs generalizing w with
    | nil => rfl
    | cons c t ih => rw [List.foldl_cons, ih (f w c), hf]
  unfold defaultConvert
  split
  · intro p hp
    simp at hp
  · dsimp only
    split
    · next wc hwc =>
      dsimp only
      apply foldl_preserves
        (fun (acc : List (String × WellData)) => ∀ p ∈ acc, p.2.raw_channels = [])
      · intro wcell hwcell t ht
        dsimp only
        split
        · exact ht
        · intro p hp
          rcases mem_updateA t _ _ p hp with h1 | h1
          · rw [h1]
            dsimp only
            refine Eq.trans (hstep _ _ _ ?_) rfl
            intro w ch
            rfl
          · exact ht p h1
      · intro p hp
        simp at hp
    · intro p hp
      have h1 := List.mem_singleton.mp hp
      rw [h1]
      dsimp only
      refine Eq.trans (hstep _ _ _ ?_) rfl
      intro w ch
      rfl

/-- C6 (amended): no structural label ever appears in `all_channels()`
for the vendor-A and vendor-7500 converters (they skip every structural
channel key); for the default converter the labels `Well`, `Channel`,
`Amplification`, `Value` and `Cycle` never appear (filtered at query
time), while `RawValue` can appear (the counterexample). -/
theorem C6_amended_no_structural_channels :
    (∀ (amp : List ARow) (raw : List RRow) (wdta : List (String × WellInfoA)) (s : String),
       s ∈ structuralNames → s ∉ (vendorAConvert amp raw wdta).get_all_channels) ∧
    (∀ (amp : List Amp7Row) (raw : List RRow) (wdta : List (String × WellInfo7)) (s : String),
       s ∈ structuralNames → s ∉ (vendor7500Convert amp raw wdta).get_all_channels) ∧
    (∀ (df : DFrame) (s : String),
       s ∈ ampFilterNames → s ∉ (defaultConvert df).get_all_channels) := by
  refine ⟨?_, ?_, ?_⟩
  · intro amp raw wdta s hs hmem
    obtain ⟨p, hp, h2⟩ := mem_get_all_channels _ s hmem
    have hinv := vendorAConvert_chan_inv amp raw wdta p hp
    rcases h2 with ⟨h3, _⟩ | ⟨h3, _⟩
    · exact hinv.1 s h3 hs
    · exact hinv.2 s h3 hs
  · intro amp raw wdta s hs hmem
    obtain ⟨p, hp, h2⟩ := mem_get_all_channels _ s hmem
    have hinv := vendor7500Convert_chan_inv amp raw wdta p hp
    rcases h2 with ⟨h3, _⟩ | ⟨h3, _⟩
    · exact hinv.1 s h3 hs
    · exact hinv.2 s h3 hs
  · intro df s hs hmem
    obtain ⟨p, hp, h2⟩ := mem_get_all_channels _ s hmem
    rcases h2 with ⟨h3, h4⟩ | ⟨h3, _⟩
    · exact h4 hs
    · rw [defaultConvert_raw_nil df p hp] at h3
      simp [keysA] at h3

/-- Witness for the amended C6 at the structural label `Cycle`. -/
theorem C6_amended_witness :
    "Cycle" ∈ structuralNames ∧
    "Cycle" ∉ (vendorAConvert [ampWitnessRow] [] []).get_all_channels ∧
    "Cycle" ∉ (defaultConvert rawValueColTable).get_all_channels := by
  refine ⟨by decide, ?_, ?_⟩
  · exact C6_amended_no_structural_channels.1 [ampWitnessRow] [] [] "Cycle" (by decide)
  · exact C6_amended_no_structural_channels.2.2 rawValueColTable "Cycle" (by decide)

/-! ## Dye-label folding facts -/

theorem map7500AmpChannel_ne_JOE (t : String) : map7500AmpChannel t ≠ "JOE" := by
  unfold map7500AmpChannel
  split
  · decide
  · next h => exact h

theorem map7500CtChannel_ne (t : String) :
    map7500CtChannel t ≠ "JOE" ∧ map7500CtChannel t ≠ "HEX" := by
  unfold map7500CtChannel
  split
  · exact ⟨by decide, by decide⟩
  · next h =>
    push_neg at h
    exact ⟨h.2, h.1⟩

theorem extract7500AmpChannel_ne (cols : Amp7Cols) (width : Nat) (row : List Cell)
    (cn : String) (h : extract7500AmpChannel cols width row = some cn) : cn ≠ "JOE" := by
  unfold extract7500AmpChannel at h
  split at h
  · simp at h
  · dsimp only at h
    split at h
    · simp at h
    · cases h
      exact map7500AmpChannel_ne_JOE _

theorem extract7500AmpRow_channel (cols : Amp7Cols) (wc cc width : Nat)
    (row : List Cell) (r : Amp7Row)
    (h : extract7500AmpRow cols wc cc width row = some r) : r.channel ≠ "JOE" := by
  unfold extract7500AmpRow at h
  dsimp only at h
  split at h
  · simp at h
  · split at h
    · simp at h
    · split at h
      · simp at h
      · split at h
        · simp at h
        · next cq hcq =>
          split at h
          · simp at h
          · next cn hcn =>
            split at h
            · simp at h
            · split at h
              · simp at h
              · next v hv =>
                cases h
                exact extract7500AmpChannel_ne cols width row cn hcn

theorem extract7500Amp_no_JOE (g : Grid) (r : Amp7Row) (hr : r ∈ extract7500Amp g) :
    r.channel ≠ "JOE" := by
  unfold extract7500Amp at hr
  split at hr
  · simp at hr
  · dsimp only at hr
    split at hr
    · next wc cc hwc hcc =>
      obtain ⟨row, _, hrow⟩ := List.mem_filterMap.mp hr
      exact extract7500AmpRow_channel _ wc cc _ row r hrow
    · simp at hr

theorem extractCtRow_keys_inv (wc tc ctc width : Nat)
    (acc : List (String × List (String × ℚ))) (row : List Cell)
    (hacc : CtKeysInv acc) : CtKeysInv (extractCtRow wc tc ctc width acc row) := by
  unfold extractCtRow
  dsimp only
  split
  · exact hacc
  · split
    · exact hacc
    · split
      · exact hacc
      · split
        · split
          · exact hacc
          · split
            · next ct_value hparse =>
              split
              · next hrange =>
                intro w m hm
                rw [lookupA_updateA] at hm
                by_cases he : w = strUpper (strTrim (rowCell row wc).toStr)
                · rw [if_pos he] at hm
                  cases hm
                  intro ch hch
                  rcases keysA_updateA _ _ _ ch hch with h1 | h1
                  · rw [h1]
                    exact map7500CtChannel_ne _
                  · cases hl0 : lookupA acc (strUpper (strTrim (rowCell row wc).toStr)) with
                    | some m1 =>
                      rw [hl0] at h1
                      simp only [Option.getD_some] at h1
                      exact hacc _ m1 hl0 ch h1
                    | none =>
                      rw [hl0] at h1
                      simp [keysA] at h1
                · rw [if_neg he] at hm
                  exact hacc w m hm
              · exact hacc
            · exact hacc
        · exact hacc

theorem extractCtFromResults_keys_inv (g : Grid) : CtKeysInv (extractCtFromResults g) := by
  unfold extractCtFromResults
  split
  · intro w m hm
    simp [lookupA] at hm
  · dsimp only
    split
    · split
      · apply foldl_preserves CtKeysInv
        · intro row hrow t ht
          exact extractCtRow_keys_inv _ _ _ _ t row ht
        · intro w m hm
          simp [lookupA] at hm
      · intro w m hm
        simp [lookupA] at hm
    · intro w m hm
      simp [lookupA] at hm

theorem mapMultiChannel_ne_JOE (t : String) : mapMultiChannel t ≠ "JOE" := by
  unfold mapMultiChannel
  split
  · decide
  · next h =>
    split
    · decide
    · exact h

theorem extractMultiAmpRow_channel (wc cc tc width : Nat) (row : List Cell)
    (r : Amp7Row) (h : extractMultiAmpRow wc cc tc width row = some r) :
    r.channel ≠ "JOE" := by
  unfold extractMultiAmpRow at h
  dsimp only at h
  split at h
  · simp at h
  · split at h
    · simp at h
    · split at h
      · simp at h
      · split at h
        · simp at h
        · split at h
          · simp at h
          · split at h
            · simp at h
            · split at h
              · simp at h
              · cases h
                exact mapMultiChannel_ne_JOE _

theorem extractMultiAmp_no_JOE (g : Grid) (r : Amp7Row)
    (hr : r ∈ extractMultiAmp g) : r.channel ≠ "JOE" := by
  unfold extractMultiAmp at hr
  split at hr
  · simp at hr
  · dsimp only at hr
    split at hr
    · obtain ⟨row, _, hrow⟩ := List.mem_filterMap.mp hr
      exact extractMultiAmpRow_channel _ _ _ _ row r hrow
    · simp at hr

theorem scanMultiRawHeader_inv (header : List Cell) (width : Nat) :
    MultiRawColsInv (scanMultiRawHeader header width) := by
  unfold scanMultiRawHeader
  apply foldl_preserves MultiRawColsInv
  · intro i _ cols hcols
    dsimp only
    split
    · exact hcols
    · split
      · intro k hk
        exact hcols k hk
      · split
        · intro k hk
          exact hcols k hk
        · split
          · intro k hk
            dsimp only at hk
            rcases keysA_updateA _ _ _ k hk with h1 | h1
            · rw [h1]
              exact mapMultiChannel_ne_JOE _
            · exact hcols k h1
          · exact hcols
  · intro k hk
    simp [keysA] at hk

theorem extractMultiRawRow_channel (wc cc : Nat)
    (channel_cols : List (String × Nat)) (width : Nat) (row : List Cell)
    (r : RRow) (hinv : ∀ k ∈ keysA channel_cols, k ≠ "JOE")
    (h : extractMultiRawRow wc cc channel_cols width row = some r) :
    r.channel ≠ "JOE" := by
  unfold extractMultiRawRow at h
  dsimp only at h
  split at h
  · simp at h
  · split at h
    · simp at h
    · split at h
      · simp at h
      · split at h
        · simp at h
        · split at h
          · simp at h
          · split at h
            · simp at h
            · split at h
              · simp at h
              · next p hp =>
                cases h
                exact hinv p.1
                  (List.mem_map_of_mem Prod.fst (List.mem_of_find?_eq_some hp))

theorem extractMultiRaw_no_JOE (g : Grid) (r : RRow)
    (hr : r ∈ extractMultiRaw g) : r.channel ≠ "JOE" := by
  unfold extractMultiRaw at hr
  split at hr
  · simp at hr
  · dsimp only at hr
    split at hr
    · split at hr
      · simp at hr
      · obtain ⟨row, _, hrow⟩ := List.mem_filterMap.mp hr
        exact extractMultiRawRow_channel _ _ _ _ row r
          (scanMultiRawHeader_inv _ _) hrow
    · simp at hr

theorem mapSetupChannel_ne (t : String) :
    mapSetupChannel t ≠ "JOE" ∧ mapSetupChannel t ≠ "HEX" := by
  unfold mapSetupChannel
  split
  · exact ⟨by decide, by decide⟩
  · next h =>
    push_neg at h
    exact ⟨h.2, h.1⟩

theorem setupSetSample_channels (e : SetupWell) (sOpt : Option String) :
    (setupSetSample e sOpt).channels = e.channels := by
  unfold setupSetSample
  cases sOpt with
  | none => rfl
  | some s =>
    dsimp only
    split <;> rfl

theorem setupAddChannel_inv (e : SetupWell) (cn : String)
    (he : ∀ ch ∈ e.channels, ch ≠ "JOE" ∧ ch ≠ "HEX")
    (hcn : cn ≠ "JOE" ∧ cn ≠ "HEX") :
    ∀ ch ∈ (setupAddChannel e cn).channels, ch ≠ "JOE" ∧ ch ≠ "HEX" := by
  unfold setupAddChannel
  split
  · exact he
  · intro ch hch
    dsimp only at hch
    rcases List.mem_append.mp hch with h1 | h1
    · exact he ch h1
    · rw [List.mem_singleton.mp h1]
      exact hcn

theorem setupBase_inv (acc : List (String × SetupWell)) (W : String)
    (hacc : SetupChanInv acc) :
    ∀ ch ∈ ((lookupA acc W).getD {}).channels, ch ≠ "JOE" ∧ ch ≠ "HEX" := by
  intro ch hch
  cases hl : lookupA acc W with
  | some e =>
    rw [hl] at hch
    exact hacc W e hl ch hch
  | none =>
    rw [hl] at hch
    exact absurd hch (List.not_mem_nil ch)

theorem setupRowStep_inv (wc tc : Nat) (sCol : Option Nat) (width : Nat)
    (acc : List (String × SetupWell)) (row : List Cell)
    (hacc : SetupChanInv acc) :
    SetupChanInv (setupRowStep wc tc sCol width acc row) := by
  unfold setupRowStep
  dsimp only
  split
  · split
    · split
      · intro w e he
        rw [lookupA_updateA] at he
        by_cases hw : w = strUpper (strTrim (rowCell row wc).toStr)
        · rw [if_pos hw] at he
          cases he
          rw [setupSetSample_channels]
          apply setupAddChannel_inv
          · exact setupBase_inv acc _ hacc
          · exact mapSetupChannel_ne _
        · rw [if_neg hw] at he
          exact hacc w e he
      · exact hacc
    · exact hacc
  · exact hacc

theorem extractWellDataFromSetup_inv (g : Grid) :
    SetupChanInv (extractWellDataFromSetup g) := by
  unfold extractWellDataFromSetup
  split
  · intro w e he
    simp [lookupA] at he
  · dsimp only
    split
    · apply foldl_preserves SetupChanInv
      · intro row hrow t ht
        exact setupRowStep_inv _ _ _ _ t row ht
      · intro w e he
        simp [lookupA] at he
    · intro w e he
      simp [lookupA] at he

/-- C7 (amended): a dye label `JOE` is always folded to `VIC` — no row
of the Amplification Data extraction or of the two Multicomponent Data
extractions carries `JOE`, and no `JOE` key survives in the
Results-sheet Ct table or the Sample Setup channel declarations; `HEX`
is preserved as its own channel in the Amplification Data and
Multicomponent Data extraction paths (concretely exhibited for each),
but in the Ct extraction from the Results sheet and in the Sample Setup
channel declarations `HEX` too is folded to `VIC` at storage time (the
counterexample), so no `HEX` key appears in either of those. -/
theorem C7_amended_dye_folding :
    (∀ (g : Grid) (r : Amp7Row), r ∈ extract7500Amp g → r.channel ≠ "JOE") ∧
    (extract7500Amp hexAmpGrid =
      [{ cycle := 1, well := "A1", channel := "HEX", amp := 2 },
       { cycle := 2, well := "A1", channel := "VIC", amp := 3 }]) ∧
    (∀ (g : Grid) (r : Amp7Row), r ∈ extractMultiAmp g → r.channel ≠ "JOE") ∧
    (extractMultiAmp hexMultiAmpGrid =
      [{ cycle := 1, well := "A1", channel := "HEX", amp := 2 },
       { cycle := 2, well := "A1", channel := "VIC", amp := 3 }]) ∧
    (∀ (g : Grid) (r : RRow), r ∈ extractMultiRaw g → r.channel ≠ "JOE") ∧
    (extractMultiRaw hexMultiRawGrid =
      [{ cycle := 1, well := "A1", channel := "HEX", rawValue := 50 },
       { cycle := 2, well := "A1", channel := "VIC", rawValue := 60 }]) ∧
    (∀ (g : Grid) (w : String) (e : SetupWell) (ch : String),
       lookupA (extractWellDataFromSetup g) w = some e →
       ch ∈ e.channels → ch ≠ "JOE" ∧ ch ≠ "HEX") ∧
    (∀ (g : Grid) (w : String) (m : List (String × ℚ)) (ch : String),
       lookupA (extractCtFromResults g) w = some m →
       ch ∈ keysA m → ch ≠ "JOE" ∧ ch ≠ "HEX") := by
  refine ⟨extract7500Amp_no_JOE, rfl, extractMultiAmp_no_JOE, rfl,
    extractMultiRaw_no_JOE, rfl, ?_, ?_⟩
  · intro g w e ch he hch
    exact extractWellDataFromSetup_inv g w e he ch hch
  · intro g w m ch hm hch
    exact extractCtFromResults_keys_inv g w m hm ch hch

/-- Witness for the amended C7: the `HEX` amplification and
multicomponent rows keep their label and are not `JOE`; the Sample Setup
channel and the Results-sheet key stored for `HEX` calls are neither
`JOE` nor `HEX`. -/
theorem C7_amended_witness :
    ({ cycle := 1, well := "A1", channel := "HEX", amp := 2 } : Amp7Row).channel ≠ "JOE" ∧
    ({ cycle := 1, well := "A1", channel := "HEX", amp := 2 } : Amp7Row).channel ≠ "JOE" ∧
    ({ cycle := 1, well := "A1", channel := "HEX", rawValue := 50 } : RRow).channel ≠ "JOE" ∧
    (("VIC" : String) ≠ "JOE" ∧ ("VIC" : String) ≠ "HEX") ∧
    (("VIC" : String) ≠ "JOE" ∧ ("VIC" : String) ≠ "HEX") := by
  refine ⟨?_, ?_, ?_, ?_, ?_⟩
  · exact C7_amended_dye_folding.1 hexAmpGrid _ (by decide)
  · exact C7_amended_dye_folding.2.2.1 hexMultiAmpGrid _ (by decide)
  · exact C7_amended_dye_folding.2.2.2.2.1 hexMultiRawGrid _ (by decide)
  · exact C7_amended_dye_folding.2.2.2.2.2.2.1 hexSetupGrid "A1"
      { channels := ["VIC"], sample_name := some "S1" } "VIC" (by rfl) (by decide)
  · exact C7_amended_dye_folding.2.2.2.2.2.2.2 hexResultsGrid "A1" [("VIC", 20)] "VIC"
      (by decide) (by decide)

/-! ## The §8 round trip -/

theorem c9Rows_ne_nil (vs : List ℚ) : c9Rows vs ≠ [] := by
  unfold c9Rows
  simp

theorem c9Rows_key (vs : List ℚ) :
    ∀ r ∈ c9Rows vs, (r.well, r.channel) = ("A1", "FAM") := by
  intro r hr
  obtain ⟨i, _, hir⟩ := List.mem_map.mp hr
  rw [← hir]

theorem c9Rows_sorted (vs : List ℚ) : sortAmp7Rows (c9Rows vs) = c9Rows vs := by
  apply sortBy_eq_self
  unfold c9Rows
  refine List.Pairwise.map _ ?_ (List.pairwise_lt_range 40)
  intro a b hab
  simp only [decide_eq_false_iff_not, not_le, Int.ofNat_eq_coe]
  omega

theorem c9_group (vs : List ℚ) :
    groupByWellChannel (fun r : Amp7Row => (r.well, r.channel)) (c9Rows vs) =
      [(("A1", "FAM"), c9Rows vs)] :=
  groupByWellChannel_single _ _ _ (c9Rows_key vs) (c9Rows_ne_nil vs)

theorem c9_convert (vs : List ℚ) :
    vendor7500Convert (c9Rows vs) [] [] = { wells := [("A1", c9Well vs)] } := by
  unfold vendor7500Convert
  dsimp only
  rw [c9_group]
  simp only [List.foldl_cons, List.foldl_nil]
  unfold vendor7500AmpStep
  dsimp only
  rw [if_neg (by decide : ¬ (strTrim "FAM" ∈ structuralNames))]
  rw [c9Rows_sorted]
  unfold setCyclesIfEmpty setSampleFromInfo storeChannel setCtChecked
  dsimp only [lookupA]
  rw [repairLen_eq_self _ _ (by simp [c9Rows])]
  unfold c9Well
  simp [c9Rows, List.map_map, groupByWellChannel, dedupFirst, updateA, Function.comp]
  exact ⟨by decide, by decide⟩

theorem to_dataframe_direct (m : PCRDataModel) (w : String) (wd : WellData) (cn : String)
    (vals : List Cell) (hw : m.get_well w = some wd) (hcn : cn ∉ structuralNames)
    (hvs : lookupA wd.channels cn = some vals) (hne : vals ≠ []) :
    m.to_dataframe (some [w]) (some [cn]) =
      buildRows (if wd.cycles.isEmpty then defaultCycles 40 else wd.cycles) vals w cn := by
  have hvempty : vals.isEmpty = false := by
    cases vals with
    | nil => exact absurd rfl hne
    | cons x t => rfl
  have hhb : wd.has_channel cn = true := by
    unfold WellData.has_channel
    rw [hvs]
    cases vals with
    | nil => exact absurd rfl hne
    | cons x t => rfl
  unfold PCRDataModel.to_dataframe WellData.get_channel_data
  simp only [pyListArg, List.foldl_cons, List.foldl_nil, hw]
  simp only [hhb, hvs, hvempty]
  simp
  rw [if_neg hcn, hvs]
  simp [hne]

/-- C9: converting the intermediate table `(A1, FAM, cycles 1..40, one
value per cycle)` and querying `(well=A1, channel=FAM, amplification)`
returns exactly the 40 input rows, in ascending cycle order, with values
equal to the input values — an identity round trip with no repair. -/
theorem C9_roundtrip_identity (vs : List ℚ) (h : vs.length = 40) :
    (vendor7500Convert (c9Rows vs) [] []).get_amplification_data
        (some ["A1"]) (some ["FAM"]) =
      (List.range 40).map (fun i =>
        { cycle := Cell.num (Int.ofNat i + 1), well := "A1", channel := "FAM",
          value := Cell.num (vs.getD i 0),
          amplification := Cell.num (vs.getD i 0) }) := by
  rw [c9_convert]
  unfold PCRDataModel.get_amplification_data
  rw [to_dataframe_direct _ "A1" (c9Well vs) "FAM"
    ((List.range 40).map fun i => Cell.num (vs.getD i 0))
    (by simp [PCRDataModel.get_well, lookupA])
    (by decide)
    (by simp [c9Well, lookupA])
    (by simp)]
  rw [show (c9Well vs).cycles.isEmpty = false from by simp [c9Well, List.isEmpty_iff]]
  rw [if_neg (by simp : ¬ (false = true))]
  simp only [c9Well]
  rw [buildRows_of_range_maps]
  simp [List.map_map, Function.comp]

/-- Witness for C9 at concrete input values. -/
theorem C9_witness :
    (vendor7500Convert (c9Rows c9WitnessVals) [] []).get_amplification_data
        (some ["A1"]) (some ["FAM"]) =
      (List.range 40).map (fun i =>
        { cycle := Cell.num (Int.ofNat i + 1), well := "A1", channel := "FAM",
          value := Cell.num (c9WitnessVals.getD i 0),
          amplification := Cell.num (c9WitnessVals.getD i 0) }) :=
  C9_roundtrip_identity c9WitnessVals (by simp [c9WitnessVals])

/-! ## The vendor-A tail padding -/

theorem c8_hasCt (ws : List ℚ) : ((c8AmpRows ws).any fun r => r.ct.isSome) = false := by
  simp [c8AmpRows]

theorem c8_hasSample (ws : List ℚ) :
    ((c8AmpRows ws).any fun r => r.sample.isSome) = false := by
  simp [c8AmpRows]

theorem c8AmpRows_ne_nil (ws : List ℚ) : c8AmpRows ws ≠ [] := by
  unfold c8AmpRows
  simp

theorem c8AmpRows_key (ws : List ℚ) :
    ∀ r ∈ c8AmpRows ws, (r.well, r.channel) = ("A1", "FAM") := by
  intro r hr
  obtain ⟨i, _, hir⟩ := List.mem_map.mp hr
  rw [← hir]

theorem c8Amp_sorted (ws : List ℚ) : sortARows (c8AmpRows ws) = c8AmpRows ws := by
  apply sortBy_eq_self
  unfold c8AmpRows
  refine List.Pairwise.map _ ?_ (List.pairwise_lt_range 42)
  intro a b hab
  simp only [decide_eq_false_iff_not, not_le, Int.ofNat_eq_coe]
  omega

theorem c8Amp_group (ws : List ℚ) :
    groupByWellChannel (fun r : ARow => (r.well, r.channel)) (c8AmpRows ws) =
      [(("A1", "FAM"), c8AmpRows ws)] :=
  groupByWellChannel_single _ _ _ (c8AmpRows_key ws) (c8AmpRows_ne_nil ws)

theorem c8RawRows_ne_nil (vs : List ℚ) : c8RawRows vs ≠ [] := by
  unfold c8RawRows
  simp

theorem c8RawRows_key (vs : List ℚ) :
    ∀ r ∈ c8RawRows vs, (r.well, r.channel) = ("A1", "FAM") := by
  intro r hr
  obtain ⟨i, _, hir⟩ := List.mem_map.mp hr
  rw [← hir]

theorem c8Raw_sorted (vs : List ℚ) : sortRRows (c8RawRows vs) = c8RawRows vs := by
  apply sortBy_eq_self
  unfold c8RawRows
  refine List.Pairwise.map _ ?_ (List.pairwise_lt_range 41)
  intro a b hab
  simp only [decide_eq_false_iff_not, not_le]
  unfold c8HoleCycle
  split <;> split <;> (simp only [Int.ofNat_eq_coe]; omega)

theorem c8Raw_group (vs : List ℚ) :
    groupByWellChannel (fun r : RRow => (r.well, r.channel)) (c8RawRows vs) =
      [(("A1", "FAM"), c8RawRows vs)] :=
  groupByWellChannel_single _ _ _ (c8RawRows_key vs) (c8RawRows_ne_nil vs)

theorem c8_amp_fold (ws : List ℚ) :
    (groupByWellChannel (fun r : ARow => (r.well, r.channel)) (c8AmpRows ws)).foldl
      (vendorAAmpStep false false) [] = [("A1", c8Well ws)] := by
  rw [c8Amp_group]
  simp only [List.foldl_cons, List.foldl_nil]
  unfold vendorAAmpStep
  dsimp only
  rw [if_neg (by decide : ¬ (strTrim "FAM" ∈ structuralNames))]
  rw [c8Amp_sorted]
  unfold setCyclesIfEmpty setSampleFirst storeChannel setCtFirst
  dsimp only [lookupA]
  rw [repairLen_eq_self _ _ (by simp [c8AmpRows])]
  unfold c8Well
  simp [c8AmpRows, List.map_map, updateA, Function.comp]
  exact ⟨by decide, by decide⟩

theorem c8_convert (vs ws : List ℚ) (hv : vs.length = 41) :
    vendorAConvert (c8AmpRows ws) (c8RawRows vs) [] =
      { wells := [("A1", c8PaddedWell vs ws)] } := by
  have hvals : (c8RawRows vs).map (fun r => r.rawValue) = vs := by
    unfold c8RawRows
    rw [List.map_map]
    have hcomp : ((fun r : RRow => r.rawValue) ∘ fun i =>
        ({ cycle := c8HoleCycle i, well := "A1", channel := "FAM",
           rawValue := vs.getD i 0 } : RRow)) = fun i => vs.getD i 0 := rfl
    rw [hcomp, map_getD_range_eq_take vs 41 0 (by omega), ← hv, List.take_length]
  unfold vendorAConvert
  dsimp only
  rw [c8_hasCt, c8_hasSample, c8_amp_fold, c8Raw_group]
  simp only [List.foldl_cons, List.foldl_nil]
  unfold vendorARawStep
  dsimp only
  rw [if_neg (by decide : ¬ (strTrim "FAM" ∈ structuralNames))]
  rw [c8Raw_sorted]
  rw [show strTrim "A1" = "A1" from rfl, show strTrim "FAM" = "FAM" from rfl]
  rw [show (lookupA [("A1", c8Well ws)] "A1").getD { well_name := "A1" } = c8Well ws from
    by simp [lookupA]]
  unfold storeRawChannel
  rw [hvals]
  rw [repairLen_pad _ _ (by simp [c8Well]) (by simp [c8Well, hv])]
  unfold vendorARawTail
  dsimp only
  rw [show (c8Well ws).cycles.isEmpty = false from by simp [c8Well, List.isEmpty_iff]]
  rw [if_neg (by simp : ¬ (false = true))]
  unfold c8Well c8PaddedWell
  simp [updateA, hv]

/-- C8 (amended): a missing raw cell drops that cycle's row from the
intermediate table; converting the shortened 41-value group against the
established 42-entry cycle list zero-pads at the tail, so the stored
sequence is the surviving values followed by `0.0`, of length 42 — the
`0.0` is at the tail, not at the missing cell's position (the
counterexample exhibits the shifted values). -/
theorem C8_amended_tail_padding (vs ws : List ℚ) (hv : vs.length = 41)
    (hw : ws.length = 42) :
    ((vendorAConvert (c8AmpRows ws) (c8RawRows vs) []).get_well "A1").map
      (fun wd => lookupA wd.raw_channels "FAM") =
      some (some ((vs ++ [0]).map Cell.num)) ∧
    ((vs ++ [0]).map Cell.num).length = 42 := by
  rw [c8_convert vs ws hv]
  constructor
  · simp [PCRDataModel.get_well, lookupA]
  · simp [hv]

/-- Witness for the amended C8 at concrete values. -/
theorem C8_amended_witness :
    ((vendorAConvert (c8AmpRows c8WitnessAmpVals)
        (c8RawRows c8WitnessRawVals) []).get_well "A1").map
      (fun wd => lookupA wd.raw_channels "FAM") =
      some (some ((c8WitnessRawVals ++ [0]).map Cell.num)) ∧
    ((c8WitnessRawVals ++ [0]).map Cell.num).length = 42 :=
  C8_amended_tail_padding c8WitnessRawVals c8WitnessAmpVals
    (by simp [c8WitnessRawVals]) (by simp [c8WitnessAmpVals])
